import Mathlib

/-!
Verification of the StrangerChat matchmaking and session-relay server.

Shallow embedding of the server's in-memory storage layer (`MemStorage` in
the storage module) and of the WebSocket event handlers (`registerRoutes`
in `server/routes.ts`).

Modelling conventions:
* Connection identifiers, room identifiers and audit-log identifiers are
  natural numbers.  `randomUUID()` is modelled by a monotone `nextId`
  counter held in the storage state; freshness of generated identifiers
  corresponds to the counter being strictly larger than every identifier
  already stored.
* `new Date()` timestamps are modelled by a monotone `clock` counter; only
  the relative order of timestamps is ever observable in the source.
* JavaScript `Map` objects are modelled as association lists with
  `mapGet` / `mapSet` / `mapDelete`; only lookup, overwrite and delete are
  used by the source, so list order of distinct keys is unobservable.
* The set of sockets currently in the `OPEN` ready-state is passed to each
  handler as a list `conns` of identifiers; `findWebSocketBySocketId`
  returning a live socket corresponds to membership in `conns`.
* `ws.send` on the handler's own socket and `partnerWs.send` are modelled
  as emitted `(recipient, OutEvent)` pairs.
* The `setTimeout` delayed match attempts in `handleNextUser` and
  `handleDisconnect` run after the handler returns; they are modelled as
  separate timer events in the event semantics below.
-/

/-- `SocketUser` from the shared schema: a waiting-queue entry. -/
structure SocketUser where
  socketId : Nat
  joinedAt : Nat
  ipAddress : String
  userAgent : String
deriving Repr, DecidableEq

/-- `ChatRoom` from the shared schema.  The source stores the two
participant identifiers as a pair; the embedding uses the two-element list
`[user1, user2]`.  `isVideoCall` is optional in the source and absent means
`false` (the source only ever reads it through `|| false` or truthiness). -/
structure ChatRoom where
  id : Nat
  users : List Nat
  createdAt : Nat
  isVideoCall : Bool
deriving Repr, DecidableEq

/-- `AuditLog` row from the shared schema. -/
structure AuditLog where
  id : Nat
  socketId : Nat
  partnerSocketId : Option Nat
  action : String
  ipAddress : Option String
  userAgent : Option String
  timestamp : Nat
  details : Option String
deriving Repr, DecidableEq

/-- `ChatMessage` from the shared schema. -/
structure ChatMessage where
  id : Nat
  content : String
  timestamp : Nat
  isOwn : Bool
deriving Repr, DecidableEq

/-- `WebRTCSignal` from the shared schema.  The `data` blob is opaque to
the relay and is modelled as an uninterpreted string; `from` is a Lean
keyword so the field is called `src` (and `to` is called `dst`). -/
structure WebRTCSignal where
  type : String
  data : String
  src : Nat
  dst : Nat
deriving Repr, DecidableEq

/-- Association-list lookup, modelling `Map.get`. -/
def mapGet {α : Type} (m : List (Nat × α)) (k : Nat) : Option α :=
  (m.find? (fun p => p.1 == k)).map (fun p => p.2)

/-- Association-list overwrite, modelling `Map.set`. -/
def mapSet {α : Type} (m : List (Nat × α)) (k : Nat) (v : α) : List (Nat × α) :=
  (k, v) :: m.filter (fun p => p.1 != k)

/-- Association-list removal, modelling `Map.delete`. -/
def mapDelete {α : Type} (m : List (Nat × α)) (k : Nat) : List (Nat × α) :=
  m.filter (fun p => p.1 != k)

/-- The fields of `MemStorage`: audit-log map (kept in insertion order, as
`Map.values()` iterates), the two waiting queues, the room map, the
user-to-room map and the WebRTC-state map (of which the source only ever
uses the key set, so only keys are modelled).  `nextId` and `clock` are
the modelling counters for `randomUUID()` and `new Date()`. -/
structure MemStorage where
  auditLogs : List AuditLog
  waitingQueue : List SocketUser
  videoWaitingQueue : List SocketUser
  chatRooms : List (Nat × ChatRoom)
  userRoomMap : List (Nat × Nat)
  webrtcState : List Nat
  nextId : Nat
  clock : Nat
deriving Repr, DecidableEq

/-- The freshly constructed `MemStorage`. -/
def initialStorage : MemStorage :=
  { auditLogs := [], waitingQueue := [], videoWaitingQueue := [],
    chatRooms := [], userRoomMap := [], webrtcState := [],
    nextId := 0, clock := 0 }

/-- `MemStorage.createAuditLog`: appends a row with a fresh identifier and
the current timestamp.  The source takes an `InsertAuditLog` object; the
embedding passes its fields positionally. -/
def createAuditLog (s : MemStorage) (socketId : Nat) (partnerSocketId : Option Nat)
    (action : String) (ipAddress userAgent : Option String)
    (details : Option String) : MemStorage :=
  let log : AuditLog :=
    { id := s.nextId, socketId := socketId, partnerSocketId := partnerSocketId,
      action := action, ipAddress := ipAddress, userAgent := userAgent,
      timestamp := s.clock, details := details }
  { s with auditLogs := s.auditLogs ++ [log],
           nextId := s.nextId + 1, clock := s.clock + 1 }

/-- `MemStorage.getAuditLogs`: all stored rows sorted by timestamp
descending (the source's comparator is `b.timestamp - a.timestamp`, and
`Array.prototype.sort` is stable, as is `mergeSort`), truncated to
`limit`.  The source declares `limit = 100` as the default. -/
def getAuditLogs (s : MemStorage) (limit : Nat) : List AuditLog :=
  (s.auditLogs.mergeSort (fun a b => b.timestamp ≤ a.timestamp)).take limit

/-- `getAuditLogs` at its declared default limit of 100. -/
def getAuditLogsDefault (s : MemStorage) : List AuditLog :=
  getAuditLogs s 100

/-- The `GET /api/audit-logs` route body: `storage.getAuditLogs(50)`. -/
def apiAuditLogs (s : MemStorage) : List AuditLog :=
  getAuditLogs s 50

/-- `MemStorage.removeUserFromQueue`. -/
def removeUserFromQueue (s : MemStorage) (socketId : Nat) : MemStorage :=
  { s with waitingQueue := s.waitingQueue.filter (fun u => u.socketId != socketId) }

/-- `MemStorage.addUserToQueue`: removes any entry with the same id first,
then appends at the tail. -/
def addUserToQueue (s : MemStorage) (user : SocketUser) : MemStorage :=
  let s1 := removeUserFromQueue s user.socketId
  { s1 with waitingQueue := s1.waitingQueue ++ [user] }

/-- `MemStorage.getWaitingUsers` (the source returns a copy; aliasing is
unobservable in the embedding). -/
def getWaitingUsers (s : MemStorage) : List SocketUser :=
  s.waitingQueue

/-- `MemStorage.removeUserFromVideoQueue`. -/
def removeUserFromVideoQueue (s : MemStorage) (socketId : Nat) : MemStorage :=
  { s with videoWaitingQueue := s.videoWaitingQueue.filter (fun u => u.socketId != socketId) }

/-- `MemStorage.addUserToVideoQueue`. -/
def addUserToVideoQueue (s : MemStorage) (user : SocketUser) : MemStorage :=
  let s1 := removeUserFromVideoQueue s user.socketId
  { s1 with videoWaitingQueue := s1.videoWaitingQueue ++ [user] }

/-- `MemStorage.getWaitingVideoUsers`. -/
def getWaitingVideoUsers (s : MemStorage) : List SocketUser :=
  s.videoWaitingQueue

/-- `MemStorage.createRoom`: generate a fresh room id, store the room, map
both participants to it, then remove both participants from both waiting
queues — all inside the one (synchronous) method call. -/
def createRoom (s : MemStorage) (user1 user2 : SocketUser) : ChatRoom × MemStorage :=
  let roomId := s.nextId
  let room : ChatRoom :=
    { id := roomId, users := [user1.socketId, user2.socketId],
      createdAt := s.clock, isVideoCall := false }
  let s1 := { s with nextId := s.nextId + 1,
                     chatRooms := mapSet s.chatRooms roomId room,
                     userRoomMap := mapSet (mapSet s.userRoomMap user1.socketId roomId)
                                      user2.socketId roomId }
  let s2 := removeUserFromQueue s1 user1.socketId
  let s3 := removeUserFromQueue s2 user2.socketId
  let s4 := removeUserFromVideoQueue s3 user1.socketId
  let s5 := removeUserFromVideoQueue s4 user2.socketId
  (room, s5)

/-- `MemStorage.getRoomByUser`. -/
def getRoomByUser (s : MemStorage) (socketId : Nat) : Option ChatRoom :=
  match mapGet s.userRoomMap socketId with
  | some roomId => mapGet s.chatRooms roomId
  | none => none

/-- `MemStorage.clearWebRTCState`. -/
def clearWebRTCState (s : MemStorage) (roomId : Nat) : MemStorage :=
  { s with webrtcState := s.webrtcState.filter (fun r => r != roomId) }

/-- `MemStorage.removeRoom`: if the room exists, drop each participant's
user-to-room mapping, delete the room, and clear its WebRTC state. -/
def removeRoom (s : MemStorage) (roomId : Nat) : MemStorage :=
  match mapGet s.chatRooms roomId with
  | some room =>
    let s1 := { s with userRoomMap := room.users.foldl (fun m u => mapDelete m u) s.userRoomMap,
                       chatRooms := mapDelete s.chatRooms roomId }
    clearWebRTCState s1 roomId
  | none => s

/-- `MemStorage.removeUserFromRoom`: if the user is mapped to an existing
room, remove the whole room; then always remove the user from both
queues. -/
def removeUserFromRoom (s : MemStorage) (socketId : Nat) : MemStorage :=
  let s1 :=
    match mapGet s.userRoomMap socketId with
    | some roomId =>
      match mapGet s.chatRooms roomId with
      | some _ => removeRoom s roomId
      | none => s
    | none => s
  removeUserFromVideoQueue (removeUserFromQueue s1 socketId) socketId

/-- The outbound event kinds written to sockets by the handlers in
`routes.ts` (the `message` event is called `chatMessage` here because the
payload type is also named). -/
inductive OutEvent where
  | connected (socketId : Nat)
  | waiting (message : String)
  | videoWaiting (message : String)
  | paired (roomId : Nat) (message : String)
  | videoPaired (roomId : Nat) (isInitiator : Bool) (message : String)
  | chatMessage (message : ChatMessage)
  | messageSent (message : ChatMessage)
  | webrtcSignal (signal : WebRTCSignal)
  | partnerDisconnected (message : String)
  | reportSubmitted (message : String)
  | errorEvent (message : String)
deriving Repr, DecidableEq

/-- An outbound transmission: recipient socket id and event. -/
abbrev Sends := List (Nat × OutEvent)

/-- The pair-selection logic inside `tryMatchTextUsersWithPreference` (and
its identical video twin): given the waiting-queue snapshot and the
`avoidPairing` list, choose `user1` and `user2`.  Returns `none` when fewer
than two users wait.  In the branch where exactly one non-avoided user
exists, the source looks up an avoided user with a non-null assertion
(`find(...)!`); that lookup cannot fail there (more than two users wait and
at most one is non-avoided), and the embedding returns `none` in the
impossible case. -/
def selectPair (waitingUsers : List SocketUser) (avoidPairing : List Nat) :
    Option (SocketUser × SocketUser) :=
  match waitingUsers with
  | user1 :: user2 :: _ =>
    if 2 < waitingUsers.length ∧ avoidPairing.length = 2 then
      match waitingUsers.filter (fun u => !(avoidPairing.contains u.socketId)) with
      | a1 :: a2 :: _ => some (a1, a2)
      | [a1] =>
        match waitingUsers.find? (fun u => avoidPairing.contains u.socketId) with
        | some u2 => some (a1, u2)
        | none => none
      | [] => some (user1, user2)
    else
      some (user1, user2)
  | _ => none

/-- `tryMatchTextUsersWithPreference`: when at least two users wait, select
a pair, create the room, and — only when both selected sockets are open —
notify both sides and write the two symmetric `paired` audit records. -/
def tryMatchTextUsersWithPreference (s : MemStorage) (conns : List Nat)
    (avoidPairing : List Nat) : MemStorage × Sends :=
  let waitingUsers := getWaitingUsers s
  if 2 ≤ waitingUsers.length then
    match selectPair waitingUsers avoidPairing with
    | some (user1, user2) =>
      let (room, s1) := createRoom s user1 user2
      if conns.contains user1.socketId ∧ conns.contains user2.socketId then
        let outs : Sends :=
          [(user1.socketId, OutEvent.paired room.id "You have been connected to a stranger!"),
           (user2.socketId, OutEvent.paired room.id "You have been connected to a stranger!")]
        let s2 := createAuditLog s1 user1.socketId (some user2.socketId) "paired"
                    (some user1.ipAddress) (some user1.userAgent)
                    (some ("Paired with " ++ toString user2.socketId))
        let s3 := createAuditLog s2 user2.socketId (some user1.socketId) "paired"
                    (some user2.ipAddress) (some user2.userAgent)
                    (some ("Paired with " ++ toString user1.socketId))
        (s3, outs)
      else
        (s1, [])
    | none => (s, [])
  else
    (s, [])

/-- `tryMatchVideoUsersWithPreference`: identical selection on the video
queue; after `createRoom` the source mutates the stored room object with
`room.isVideoCall = true`, modelled by rewriting the map entry. -/
def tryMatchVideoUsersWithPreference (s : MemStorage) (conns : List Nat)
    (avoidPairing : List Nat) : MemStorage × Sends :=
  let waitingUsers := getWaitingVideoUsers s
  if 2 ≤ waitingUsers.length then
    match selectPair waitingUsers avoidPairing with
    | some (user1, user2) =>
      let (room, s1) := createRoom s user1 user2
      let s1v := { s1 with chatRooms := mapSet s1.chatRooms room.id { room with isVideoCall := true } }
      if conns.contains user1.socketId ∧ conns.contains user2.socketId then
        let outs : Sends :=
          [(user1.socketId, OutEvent.videoPaired room.id true "Connected for video chat! Preparing video..."),
           (user2.socketId, OutEvent.videoPaired room.id false "Connected for video chat! Preparing video...")]
        let s2 := createAuditLog s1v user1.socketId (some user2.socketId) "video_paired"
                    (some user1.ipAddress) (some user1.userAgent)
                    (some ("Video paired with " ++ toString user2.socketId))
        let s3 := createAuditLog s2 user2.socketId (some user1.socketId) "video_paired"
                    (some user2.ipAddress) (some user2.userAgent)
                    (some ("Video paired with " ++ toString user1.socketId))
        (s3, outs)
      else
        (s1v, [])
    | none => (s, [])
  else
    (s, [])

/-- `handleJoinQueue`: evict from any existing room, enqueue on the text
queue, audit, attempt a match, and report `waiting` when unmatched. -/
def handleJoinQueue (s : MemStorage) (conns : List Nat) (socketId : Nat)
    (ipAddress userAgent : String) : MemStorage × Sends :=
  let user : SocketUser :=
    { socketId := socketId, joinedAt := s.clock,
      ipAddress := ipAddress, userAgent := userAgent }
  let s1 := removeUserFromRoom s socketId
  let s2 := addUserToQueue s1 user
  let s3 := createAuditLog s2 socketId none "join_queue"
              (some ipAddress) (some userAgent) (some "User joined waiting queue")
  let (s4, outs) := tryMatchTextUsersWithPreference s3 conns []
  match getRoomByUser s4 socketId with
  | some _ => (s4, outs)
  | none => (s4, outs ++ [(socketId, OutEvent.waiting "Looking for someone to chat with...")])

/-- `handleStartVideo`: the video twin of `handleJoinQueue`. -/
def handleStartVideo (s : MemStorage) (conns : List Nat) (socketId : Nat)
    (ipAddress userAgent : String) : MemStorage × Sends :=
  let user : SocketUser :=
    { socketId := socketId, joinedAt := s.clock,
      ipAddress := ipAddress, userAgent := userAgent }
  let s1 := removeUserFromRoom s socketId
  let s2 := addUserToVideoQueue s1 user
  let s3 := createAuditLog s2 socketId none "join_video_queue"
              (some ipAddress) (some userAgent) (some "User joined video chat waiting queue")
  let (s4, outs) := tryMatchVideoUsersWithPreference s3 conns []
  match getRoomByUser s4 socketId with
  | some _ => (s4, outs)
  | none => (s4, outs ++ [(socketId, OutEvent.videoWaiting "Looking for someone to video chat with...")])

/-- `handleSendMessage`: requires a room and a partner; when the partner's
socket is not open, send a partner-disconnected notice, remove the sender
from the room, and return; otherwise deliver the length-capped message to
the partner, echo a confirmation to the sender, and audit without
content.  `content.substring(0, 1000)` is `String.take 1000`. -/
def handleSendMessage (s : MemStorage) (conns : List Nat) (socketId : Nat)
    (content : String) : MemStorage × Sends :=
  match getRoomByUser s socketId with
  | none => (s, [(socketId, OutEvent.errorEvent "You are not in a chat room")])
  | some room =>
    match room.users.find? (fun u => u != socketId) with
    | none => (s, [(socketId, OutEvent.errorEvent "No partner found")])
    | some partnerId =>
      if conns.contains partnerId then
        let messageData : ChatMessage :=
          { id := s.nextId, content := content.take 1000,
            timestamp := s.clock, isOwn := false }
        let outs : Sends :=
          [(partnerId, OutEvent.chatMessage messageData),
           (socketId, OutEvent.messageSent { messageData with isOwn := true })]
        let s1 := { s with nextId := s.nextId + 1 }
        let s2 := createAuditLog s1 socketId (some partnerId) "message"
                    none none (some "Message sent")
        (s2, outs)
      else
        (removeUserFromRoom s socketId,
         [(socketId, OutEvent.partnerDisconnected "Your partner has disconnected")])

/-- `handleNextUser`: with no room, either re-affirm the waiting state or
fall back to a fresh join; with a room, audit, clear video signaling
state, delete the room, re-enqueue both participants on the queue chosen
by the explicit `videoMode` flag (falling back to the room's own flag),
and notify both sides.  The delayed avoidance match (`setTimeout`, 1s) is
a separate timer event. -/
def handleNextUser (s : MemStorage) (conns : List Nat) (socketId : Nat)
    (ipAddress userAgent : String) (videoMode : Option Bool) : MemStorage × Sends :=
  match getRoomByUser s socketId with
  | none =>
    let isInTextQueue := (getWaitingUsers s).any (fun u => u.socketId == socketId)
    let isInVideoQueue := (getWaitingVideoUsers s).any (fun u => u.socketId == socketId)
    if isInTextQueue || isInVideoQueue then
      if videoMode.getD false || isInVideoQueue then
        (s, [(socketId, OutEvent.videoWaiting "Still looking for someone to video chat with...")])
      else
        (s, [(socketId, OutEvent.waiting "Still looking for someone to chat with...")])
    else
      match videoMode with
      | some true => handleStartVideo s conns socketId ipAddress userAgent
      | _ => handleJoinQueue s conns socketId ipAddress userAgent
  | some room =>
    let wasVideoCall : Bool :=
      match videoMode with
      | some b => b
      | none => room.isVideoCall
    let partnerId := room.users.find? (fun u => u != socketId)
    let s1 := createAuditLog s socketId partnerId "next_user"
                (some ipAddress) (some userAgent)
                (some "User clicked next to find new partner")
    let s2 := if wasVideoCall && partnerId.isSome then clearWebRTCState s1 room.id else s1
    let s3 := removeUserFromRoom s2 socketId
    let s4 :=
      match partnerId with
      | some pid => removeUserFromRoom s3 pid
      | none => s3
    match partnerId with
    | some pid =>
      let currentUser : SocketUser :=
        { socketId := socketId, joinedAt := s4.clock,
          ipAddress := ipAddress, userAgent := userAgent }
      let partnerUser : SocketUser :=
        { socketId := pid, joinedAt := s4.clock, ipAddress := "", userAgent := "" }
      if wasVideoCall then
        let s5 := addUserToVideoQueue (addUserToVideoQueue s4 currentUser) partnerUser
        let outs : Sends :=
          (socketId, OutEvent.videoWaiting "Looking for someone new to video chat with...") ::
            (if conns.contains pid then
              [(pid, OutEvent.videoWaiting "Looking for someone new to video chat with...")]
            else [])
        (s5, outs)
      else
        let s5 := addUserToQueue (addUserToQueue s4 currentUser) partnerUser
        let outs : Sends :=
          (socketId, OutEvent.waiting "Looking for someone new to chat with...") ::
            (if conns.contains pid then
              [(pid, OutEvent.waiting "Looking for someone new to chat with...")]
            else [])
        (s5, outs)
    | none =>
      if wasVideoCall then handleStartVideo s4 conns socketId ipAddress userAgent
      else handleJoinQueue s4 conns socketId ipAddress userAgent

/-- `handleReportUser`: requires a room; audit the report naming the
partner, confirm submission, then run the `handleNextUser` teardown with
no explicit mode flag. -/
def handleReportUser (s : MemStorage) (conns : List Nat) (socketId : Nat)
    (ipAddress userAgent : String) : MemStorage × Sends :=
  match getRoomByUser s socketId with
  | none => (s, [(socketId, OutEvent.errorEvent "No active chat to report")])
  | some room =>
    let s1 :=
      match room.users.find? (fun u => u != socketId) with
      | some pid =>
        createAuditLog s socketId (some pid) "report"
          (some ipAddress) (some userAgent)
          (some ("User reported partner " ++ toString pid ++ " for inappropriate behavior"))
      | none => s
    let (s2, outs2) := handleNextUser s1 conns socketId ipAddress userAgent none
    (s2, (socketId, OutEvent.reportSubmitted "Report submitted successfully") :: outs2)

/-- `handleWebRTCSignal`: requires a video room and a partner; on a dead
partner socket behave as a soft disconnect, otherwise forward the signal
stamped with sender and recipient and audit only its type tag. -/
def handleWebRTCSignal (s : MemStorage) (conns : List Nat) (socketId : Nat)
    (signal : WebRTCSignal) : MemStorage × Sends :=
  match getRoomByUser s socketId with
  | some room =>
    if room.isVideoCall then
      match room.users.find? (fun u => u != socketId) with
      | none => (s, [(socketId, OutEvent.errorEvent "No video partner found")])
      | some partnerId =>
        if conns.contains partnerId then
          let outs : Sends :=
            [(partnerId, OutEvent.webrtcSignal { signal with src := socketId, dst := partnerId })]
          let s1 := createAuditLog s socketId (some partnerId) "webrtc_signal"
                      none none (some ("WebRTC signal type: " ++ signal.type))
          (s1, outs)
        else
          (removeUserFromRoom s socketId,
           [(socketId, OutEvent.partnerDisconnected "Your video partner has disconnected")])
    else (s, [(socketId, OutEvent.errorEvent "Not in a video chat room")])
  | none => (s, [(socketId, OutEvent.errorEvent "Not in a video chat room")])

/-- `handleDisconnect`: if the connection held a room, clear video
signaling state, notify an open partner and re-enqueue it on the queue
matching the room's video flag, audit, and finally always remove the
disconnecting identifier from its room and both queues.  The delayed match
attempt (`setTimeout`, 500ms) is a separate timer event. -/
def handleDisconnect (s : MemStorage) (conns : List Nat) (socketId : Nat)
    (ipAddress userAgent : String) : MemStorage × Sends :=
  let (s1, outs) :=
    match getRoomByUser s socketId with
    | some room =>
      let sa := if room.isVideoCall then clearWebRTCState s room.id else s
      match room.users.find? (fun u => u != socketId) with
      | some partnerId =>
        let (sb, os) :=
          if conns.contains partnerId then
            let partnerUser : SocketUser :=
              { socketId := partnerId, joinedAt := sa.clock,
                ipAddress := "", userAgent := "" }
            if room.isVideoCall then
              (addUserToVideoQueue sa partnerUser,
               [(partnerId, OutEvent.partnerDisconnected "Your video partner has disconnected"),
                (partnerId, OutEvent.videoWaiting "Looking for someone to video chat with...")])
            else
              (addUserToQueue sa partnerUser,
               [(partnerId, OutEvent.partnerDisconnected "Your partner has disconnected"),
                (partnerId, OutEvent.waiting "Looking for someone to chat with...")])
          else (sa, [])
        (createAuditLog sb socketId (some partnerId) "disconnect"
           (some ipAddress) (some userAgent) (some "User disconnected from chat"), os)
      | none => (sa, [])
    | none => (s, [])
  (removeUserFromRoom s1 socketId, outs)

/-- The parsed inbound client messages dispatched by the `ws.on('message')`
switch, plus a constructor for a well-formed payload whose `type` tag is
none of the known kinds (the switch's `default` case). -/
inductive ClientMessage where
  | joinQueue
  | sendMessage (content : String)
  | nextUser (videoMode : Option Bool)
  | reportUser
  | startVideo
  | webrtcSignal (signal : WebRTCSignal)
  | unknownType (tag : String)
deriving Repr, DecidableEq

/-- A raw inbound frame: either JSON that fails to parse, or a parsed
message. -/
inductive Inbound where
  | malformed
  | parsed (m : ClientMessage)
deriving Repr, DecidableEq

/-- The `ws.on('message')` handler: parse, dispatch on the type tag; a
parse failure is caught and answered with the generic error event; an
unknown type tag is only logged (the `default` case sends nothing). -/
def handleRawMessage (s : MemStorage) (conns : List Nat) (socketId : Nat)
    (ipAddress userAgent : String) (msg : Inbound) : MemStorage × Sends :=
  match msg with
  | .malformed => (s, [(socketId, OutEvent.errorEvent "Failed to process message")])
  | .parsed .joinQueue => handleJoinQueue s conns socketId ipAddress userAgent
  | .parsed (.sendMessage content) => handleSendMessage s conns socketId content
  | .parsed (.nextUser videoMode) => handleNextUser s conns socketId ipAddress userAgent videoMode
  | .parsed .reportUser => handleReportUser s conns socketId ipAddress userAgent
  | .parsed .startVideo => handleStartVideo s conns socketId ipAddress userAgent
  | .parsed (.webrtcSignal signal) => handleWebRTCSignal s conns socketId signal
  | .parsed (.unknownType _) => (s, [])

/-- One atomic turn of the server event loop: a client-intent handler
invocation, a disconnect cleanup, or the firing of one of the delayed
match timers.  Each event carries the set `conns` of sockets that are in
the `OPEN` ready-state during that turn. -/
inductive Event where
  | joinText (conns : List Nat) (socketId : Nat) (ipAddress userAgent : String)
  | joinVideo (conns : List Nat) (socketId : Nat) (ipAddress userAgent : String)
  | sendMsg (conns : List Nat) (socketId : Nat) (content : String)
  | nextUser (conns : List Nat) (socketId : Nat) (ipAddress userAgent : String)
      (videoMode : Option Bool)
  | report (conns : List Nat) (socketId : Nat) (ipAddress userAgent : String)
  | disconnect (conns : List Nat) (socketId : Nat) (ipAddress userAgent : String)
  | timerMatchText (conns : List Nat) (avoid : List Nat)
  | timerMatchVideo (conns : List Nat) (avoid : List Nat)
deriving Repr, DecidableEq

/-- The dispatcher over event-loop turns. -/
def step (s : MemStorage) (e : Event) : MemStorage × Sends :=
  match e with
  | .joinText conns socketId ip ua => handleJoinQueue s conns socketId ip ua
  | .joinVideo conns socketId ip ua => handleStartVideo s conns socketId ip ua
  | .sendMsg conns socketId content => handleSendMessage s conns socketId content
  | .nextUser conns socketId ip ua vm => handleNextUser s conns socketId ip ua vm
  | .report conns socketId ip ua => handleReportUser s conns socketId ip ua
  | .disconnect conns socketId ip ua => handleDisconnect s conns socketId ip ua
  | .timerMatchText conns avoid => tryMatchTextUsersWithPreference s conns avoid
  | .timerMatchVideo conns avoid => tryMatchVideoUsersWithPreference s conns avoid

/-- The storage state reached after a sequence of event-loop turns,
starting from the freshly constructed `MemStorage`. -/
def runEvents (evts : List Event) : MemStorage :=
  evts.foldl (fun s e => (step s e).1) initialStorage

/-! ### Membership notions and basic map lemmas -/

/-- The connection identifiers of a queue snapshot. -/
def queueIds (q : List SocketUser) : List Nat :=
  q.map SocketUser.socketId

/-- Membership of an identifier in the text waiting queue. -/
def inTextQueue (s : MemStorage) (id : Nat) : Prop :=
  id ∈ queueIds s.waitingQueue

/-- Membership of an identifier in the video waiting queue. -/
def inVideoQueue (s : MemStorage) (id : Nat) : Prop :=
  id ∈ queueIds s.videoWaitingQueue

/-- Membership of an identifier in some stored room's participant list. -/
def inSomeRoom (s : MemStorage) (id : Nat) : Prop :=
  ∃ p ∈ s.chatRooms, id ∈ p.2.users

/-- The identifier has a user-to-room mapping. -/
def isMapped (s : MemStorage) (id : Nat) : Prop :=
  (mapGet s.userRoomMap id).isSome

theorem mapGet_nil {α : Type} (k : Nat) : mapGet ([] : List (Nat × α)) k = none := rfl

theorem mapGet_mapSet_self {α : Type} (m : List (Nat × α)) (k : Nat) (v : α) :
    mapGet (mapSet m k v) k = some v := by
  simp [mapGet, mapSet, List.find?]

theorem find?_key_filter {α : Type} (m : List (Nat × α)) {k x : Nat} (h : x ≠ k) :
    (m.filter (fun p => p.1 != k)).find? (fun p => p.1 == x)
      = m.find? (fun p => p.1 == x) := by
  induction m with
  | nil => rfl
  | cons a t ih =>
    by_cases hk : a.1 = k
    · have h1 : (a.1 != k) = false := by simp [hk]
      have h2 : (a.1 == x) = false := by simp [hk]; exact fun e => (h e.symm).elim
      simp [List.filter_cons, h1, List.find?, h2, ih]
    · have h1 : (a.1 != k) = true := by simp [hk]
      by_cases hx : a.1 = x
      · simp [List.filter_cons, h1, List.find?, hx, h]
      · have h2 : (a.1 == x) = false := by simp [hx]
        simp [List.filter_cons, h1, List.find?, h2, ih, h]

theorem mapGet_mapSet_ne {α : Type} (m : List (Nat × α)) {k x : Nat} (v : α) (h : x ≠ k) :
    mapGet (mapSet m k v) x = mapGet m x := by
  have h2 : (k == x) = false := by simp; exact fun e => (h e.symm).elim
  simp [mapGet, mapSet, List.find?, h2, find?_key_filter m h]

theorem mapGet_mapDelete_self {α : Type} (m : List (Nat × α)) (k : Nat) :
    mapGet (mapDelete m k) k = none := by
  simp only [mapGet, mapDelete, Option.map_eq_none', List.find?_eq_none]
  intro p hp
  have := List.of_mem_filter hp
  simpa using this

theorem mapGet_mapDelete_ne {α : Type} (m : List (Nat × α)) {k x : Nat} (h : x ≠ k) :
    mapGet (mapDelete m k) x = mapGet m x := by
  simp [mapGet, mapDelete, find?_key_filter m h]

theorem mapGet_foldl_mapDelete {α : Type} (users : List Nat) (m : List (Nat × α)) (x : Nat) :
    mapGet (users.foldl (fun acc u => mapDelete acc u) m) x
      = if x ∈ users then none else mapGet m x := by
  induction users generalizing m with
  | nil => simp
  | cons u t ih =>
    simp only [List.foldl_cons, ih]
    by_cases hx : x ∈ t
    · simp [hx]
    · by_cases hu : x = u
      · simp [hx, hu, mapGet_mapDelete_self]
      · simp [hx, hu, mapGet_mapDelete_ne m hu]

theorem mapGet_isSome_of_mem {α : Type} {m : List (Nat × α)} {k : Nat} {v : α}
    (h : (k, v) ∈ m) : (mapGet m k).isSome := by
  induction m with
  | nil => simp at h
  | cons a t ih =>
    rcases List.mem_cons.mp h with h | h
    · simp [mapGet, List.find?, ← h]
    · by_cases hk : a.1 = k
      · simp [mapGet, List.find?, hk]
      · have h2 : (a.1 == k) = false := by simp [hk]
        simpa [mapGet, List.find?, h2] using ih h

theorem mem_of_mapGet_eq_some {α : Type} {m : List (Nat × α)} {k : Nat} {v : α}
    (h : mapGet m k = some v) : (k, v) ∈ m := by
  simp only [mapGet, Option.map_eq_some'] at h
  obtain ⟨p, hp, hv⟩ := h
  have hmem := List.mem_of_find?_eq_some hp
  have hkey := List.find?_some hp
  have : p.1 = k := by simpa using hkey
  have : p = (k, v) := by
    cases p; simp_all
  rw [← this]; exact hmem

theorem mapGet_eq_some_of_mem_nodup {α : Type} {m : List (Nat × α)} {k : Nat} {v : α}
    (hnd : (m.map Prod.fst).Nodup) (h : (k, v) ∈ m) : mapGet m k = some v := by
  induction m with
  | nil => simp at h
  | cons a t ih =>
    simp only [List.map_cons, List.nodup_cons] at hnd
    rcases List.mem_cons.mp h with h | h
    · simp [mapGet, List.find?, ← h]
    · have hk : a.1 ≠ k := by
        intro e
        exact hnd.1 (e ▸ (List.mem_map.mpr ⟨(k, v), h, rfl⟩))
      have h2 : (a.1 == k) = false := by simp [hk]
      simpa [mapGet, List.find?, h2] using ih hnd.2 h

theorem keys_mapSet_nodup {α : Type} {m : List (Nat × α)} (k : Nat) (v : α)
    (hnd : (m.map Prod.fst).Nodup) : ((mapSet m k v).map Prod.fst).Nodup := by
  simp only [mapSet, List.map_cons, List.nodup_cons]
  constructor
  · intro hmem
    obtain ⟨p, hp, he⟩ := List.mem_map.mp hmem
    have := List.of_mem_filter hp
    simp [he] at this
  · exact List.Nodup.sublist (List.Sublist.map _ (List.filter_sublist m)) hnd

theorem keys_mapDelete_nodup {α : Type} {m : List (Nat × α)} (k : Nat)
    (hnd : (m.map Prod.fst).Nodup) : ((mapDelete m k).map Prod.fst).Nodup :=
  List.Nodup.sublist (List.Sublist.map _ (List.filter_sublist m)) hnd

theorem mem_queueIds_filter {q : List SocketUser} {x y : Nat} :
    x ∈ queueIds (q.filter (fun u => u.socketId != y)) ↔ x ∈ queueIds q ∧ x ≠ y := by
  simp only [queueIds, List.mem_map, List.mem_filter]
  constructor
  · rintro ⟨u, ⟨hm, hne⟩, he⟩
    refine ⟨⟨u, hm, he⟩, ?_⟩
    simp only [bne_iff_ne, ne_eq] at hne
    exact he ▸ hne
  · rintro ⟨⟨u, hm, he⟩, hne⟩
    exact ⟨u, ⟨hm, by simp [he, hne]⟩, he⟩

theorem mem_queueIds_append {q r : List SocketUser} {x : Nat} :
    x ∈ queueIds (q ++ r) ↔ x ∈ queueIds q ∨ x ∈ queueIds r := by
  simp [queueIds]

/-! ### The well-formedness invariant -/

/-- The inductive invariant of the storage state: room-map key coherence,
freshness of stored room identifiers below the id counter, mutual
coherence of the user-to-room map with the room participant lists, and
mutual exclusion of the three memberships. -/
structure WF (s : MemStorage) : Prop where
  roomKeyId : ∀ p ∈ s.chatRooms, p.2.id = p.1
  roomFresh : ∀ p ∈ s.chatRooms, p.1 < s.nextId
  roomKeysNodup : (s.chatRooms.map Prod.fst).Nodup
  mapToRoom : ∀ id rid, mapGet s.userRoomMap id = some rid →
      ∃ r, mapGet s.chatRooms rid = some r ∧ id ∈ r.users
  roomToMap : ∀ rid r, mapGet s.chatRooms rid = some r →
      ∀ id ∈ r.users, mapGet s.userRoomMap id = some rid
  exclTV : ∀ id, inTextQueue s id → ¬ inVideoQueue s id
  exclTM : ∀ id, inTextQueue s id → ¬ isMapped s id
  exclVM : ∀ id, inVideoQueue s id → ¬ isMapped s id

theorem WF_initialStorage : WF initialStorage := by
  constructor <;> simp [initialStorage, inTextQueue, inVideoQueue, isMapped, queueIds, mapGet]

/-- Well-formedness only depends on the queues, rooms, map and id counter;
any operation that keeps those (allowing the counter to grow) preserves
it. -/
theorem WF_of_eq_fields {s s' : MemStorage} (hw : WF s)
    (h1 : s'.waitingQueue = s.waitingQueue)
    (h2 : s'.videoWaitingQueue = s.videoWaitingQueue)
    (h3 : s'.chatRooms = s.chatRooms)
    (h4 : s'.userRoomMap = s.userRoomMap)
    (h5 : s.nextId ≤ s'.nextId) : WF s' := by
  constructor
  · rw [h3]; exact hw.roomKeyId
  · rw [h3]; exact fun p hp => lt_of_lt_of_le (hw.roomFresh p hp) h5
  · rw [h3]; exact hw.roomKeysNodup
  · rw [h3, h4]; exact hw.mapToRoom
  · rw [h3, h4]; exact hw.roomToMap
  · intro id; simp only [inTextQueue, inVideoQueue, h1, h2]; exact hw.exclTV id
  · intro id; simp only [inTextQueue, isMapped, h1, h4]; exact hw.exclTM id
  · intro id; simp only [inVideoQueue, isMapped, h2, h4]; exact hw.exclVM id

theorem WF_createAuditLog {s : MemStorage} (hw : WF s) (a : Nat) (p : Option Nat)
    (ac : String) (i u d : Option String) : WF (createAuditLog s a p ac i u d) :=
  WF_of_eq_fields hw rfl rfl rfl rfl (Nat.le_succ _)

theorem WF_clearWebRTCState {s : MemStorage} (hw : WF s) (rid : Nat) :
    WF (clearWebRTCState s rid) :=
  WF_of_eq_fields hw rfl rfl rfl rfl le_rfl

theorem WF_removeUserFromQueue {s : MemStorage} (hw : WF s) (x : Nat) :
    WF (removeUserFromQueue s x) := by
  constructor
  · exact hw.roomKeyId
  · exact hw.roomFresh
  · exact hw.roomKeysNodup
  · exact hw.mapToRoom
  · exact hw.roomToMap
  · intro id ht
    have := (mem_queueIds_filter.mp ht).1
    exact fun hv => hw.exclTV id this hv
  · intro id ht
    have := (mem_queueIds_filter.mp ht).1
    exact hw.exclTM id this
  · intro id hv
    exact hw.exclVM id hv

theorem WF_removeUserFromVideoQueue {s : MemStorage} (hw : WF s) (x : Nat) :
    WF (removeUserFromVideoQueue s x) := by
  constructor
  · exact hw.roomKeyId
  · exact hw.roomFresh
  · exact hw.roomKeysNodup
  · exact hw.mapToRoom
  · exact hw.roomToMap
  · intro id ht hv
    exact hw.exclTV id ht (mem_queueIds_filter.mp hv).1
  · intro id ht
    exact hw.exclTM id ht
  · intro id hv
    exact hw.exclVM id (mem_queueIds_filter.mp hv).1

theorem inTextQueue_addUserToQueue {s : MemStorage} {u : SocketUser} {x : Nat} :
    inTextQueue (addUserToQueue s u) x ↔
      (inTextQueue s x ∧ x ≠ u.socketId) ∨ x = u.socketId := by
  simp only [inTextQueue, addUserToQueue, removeUserFromQueue, mem_queueIds_append,
    mem_queueIds_filter]
  constructor
  · rintro (h | h)
    · exact Or.inl h
    · simp [queueIds] at h
      exact Or.inr h
  · rintro (h | h)
    · exact Or.inl h
    · right; simp [queueIds, h]

theorem inVideoQueue_addUserToVideoQueue {s : MemStorage} {u : SocketUser} {x : Nat} :
    inVideoQueue (addUserToVideoQueue s u) x ↔
      (inVideoQueue s x ∧ x ≠ u.socketId) ∨ x = u.socketId := by
  simp only [inVideoQueue, addUserToVideoQueue, removeUserFromVideoQueue, mem_queueIds_append,
    mem_queueIds_filter]
  constructor
  · rintro (h | h)
    · exact Or.inl h
    · simp [queueIds] at h
      exact Or.inr h
  · rintro (h | h)
    · exact Or.inl h
    · right; simp [queueIds, h]

theorem WF_addUserToQueue {s : MemStorage} {u : SocketUser} (hw : WF s)
    (hv : ¬ inVideoQueue s u.socketId) (hm : ¬ isMapped s u.socketId) :
    WF (addUserToQueue s u) := by
  constructor
  · exact hw.roomKeyId
  · exact hw.roomFresh
  · exact hw.roomKeysNodup
  · exact hw.mapToRoom
  · exact hw.roomToMap
  · intro id ht hvv
    have hvv' : inVideoQueue s id := hvv
    rcases inTextQueue_addUserToQueue.mp ht with ⟨h1, _⟩ | h1
    · exact hw.exclTV id h1 hvv'
    · exact hv (h1 ▸ hvv')
  · intro id ht hmm
    have hmm' : isMapped s id := hmm
    rcases inTextQueue_addUserToQueue.mp ht with ⟨h1, _⟩ | h1
    · exact hw.exclTM id h1 hmm'
    · exact hm (h1 ▸ hmm')
  · intro id hvv hmm
    exact hw.exclVM id hvv hmm

theorem WF_addUserToVideoQueue {s : MemStorage} {u : SocketUser} (hw : WF s)
    (ht : ¬ inTextQueue s u.socketId) (hm : ¬ isMapped s u.socketId) :
    WF (addUserToVideoQueue s u) := by
  constructor
  · exact hw.roomKeyId
  · exact hw.roomFresh
  · exact hw.roomKeysNodup
  · exact hw.mapToRoom
  · exact hw.roomToMap
  · intro id htt hvv
    have htt' : inTextQueue s id := htt
    rcases inVideoQueue_addUserToVideoQueue.mp hvv with ⟨h1, _⟩ | h1
    · exact hw.exclTV id htt' h1
    · exact ht (h1 ▸ htt')
  · intro id htt hmm
    exact hw.exclTM id htt hmm
  · intro id hvv hmm
    have hmm' : isMapped s id := hmm
    rcases inVideoQueue_addUserToVideoQueue.mp hvv with ⟨h1, _⟩ | h1
    · exact hw.exclVM id h1 hmm'
    · exact hm (h1 ▸ hmm')

theorem WF_removeRoom {s : MemStorage} (hw : WF s) (rid : Nat) :
    WF (removeRoom s rid) := by
  unfold removeRoom
  split
  next room hr =>
    simp only [clearWebRTCState]
    constructor
    · intro p hp
      exact hw.roomKeyId p (List.mem_of_mem_filter hp)
    · intro p hp
      exact hw.roomFresh p (List.mem_of_mem_filter hp)
    · exact keys_mapDelete_nodup rid hw.roomKeysNodup
    · intro id rid2 hm
      simp only at hm
      rw [mapGet_foldl_mapDelete] at hm
      by_cases hmem : id ∈ room.users
      · simp [hmem] at hm
      · simp only [hmem, if_false] at hm
        obtain ⟨r, hrr, hid⟩ := hw.mapToRoom id rid2 hm
        have hne : rid2 ≠ rid := by
          intro e; subst e
          rw [hr] at hrr
          cases hrr
          exact hmem hid
        refine ⟨r, ?_, hid⟩
        simpa only [mapGet_mapDelete_ne _ hne] using hrr
    · intro rid2 r hrr id hid
      simp only at hrr ⊢
      have hne : rid2 ≠ rid := by
        intro e; subst e
        rw [mapGet_mapDelete_self] at hrr; cases hrr
      rw [mapGet_mapDelete_ne _ hne] at hrr
      have hm := hw.roomToMap rid2 r hrr id hid
      rw [mapGet_foldl_mapDelete]
      have hnotin : id ∉ room.users := by
        intro hin
        have h2 := hw.roomToMap rid room hr id hin
        rw [hm] at h2
        cases h2
        exact hne rfl
      simp [hnotin, hm]
    · intro id ht hv
      exact hw.exclTV id ht hv
    · intro id ht hm
      apply hw.exclTM id ht
      simp only [isMapped] at hm ⊢
      rw [mapGet_foldl_mapDelete] at hm
      by_cases hmem : id ∈ room.users
      · simp [hmem] at hm
      · simpa [hmem] using hm
    · intro id hv hm
      apply hw.exclVM id hv
      simp only [isMapped] at hm ⊢
      rw [mapGet_foldl_mapDelete] at hm
      by_cases hmem : id ∈ room.users
      · simp [hmem] at hm
      · simpa [hmem] using hm
  next hr =>
    exact hw

theorem WF_removeUserFromRoom {s : MemStorage} (hw : WF s) (x : Nat) :
    WF (removeUserFromRoom s x) := by
  unfold removeUserFromRoom
  apply WF_removeUserFromVideoQueue
  apply WF_removeUserFromQueue
  split
  next rid hm =>
    split
    next room hr => exact WF_removeRoom hw rid
    next hr => exact hw
  next hm => exact hw

theorem WF_createRoom {s : MemStorage} {user1 user2 : SocketUser} (hw : WF s)
    (h1 : ¬ isMapped s user1.socketId) (h2 : ¬ isMapped s user2.socketId) :
    WF (createRoom s user1 user2).2 := by
  have h1n : mapGet s.userRoomMap user1.socketId = none := by
    simp only [isMapped, Option.isSome_iff_exists] at h1
    cases hg : mapGet s.userRoomMap user1.socketId with
    | none => rfl
    | some v => exact absurd ⟨v, hg⟩ h1
  have h2n : mapGet s.userRoomMap user2.socketId = none := by
    simp only [isMapped, Option.isSome_iff_exists] at h2
    cases hg : mapGet s.userRoomMap user2.socketId with
    | none => rfl
    | some v => exact absurd ⟨v, hg⟩ h2
  have hfresh : ∀ rid2 r, mapGet s.chatRooms rid2 = some r → rid2 ≠ s.nextId := by
    intro rid2 r hg e
    have hmem := mem_of_mapGet_eq_some hg
    have hlt := hw.roomFresh _ hmem
    simp only at hlt
    rw [e] at hlt
    exact lt_irrefl _ hlt
  simp only [createRoom, removeUserFromQueue, removeUserFromVideoQueue]
  constructor
  · intro p hp
    rcases List.mem_cons.mp hp with hp | hp
    · rw [hp]
    · exact hw.roomKeyId p (List.mem_of_mem_filter hp)
  · intro p hp
    rcases List.mem_cons.mp hp with hp | hp
    · rw [hp]; exact Nat.lt_succ_self _
    · exact Nat.lt_succ_of_lt (hw.roomFresh p (List.mem_of_mem_filter hp))
  · exact keys_mapSet_nodup _ _ hw.roomKeysNodup
  · intro id rid2 hm
    simp only at hm ⊢
    by_cases idu2 : id = user2.socketId
    · subst idu2
      rw [mapGet_mapSet_self] at hm
      cases hm
      exact ⟨_, mapGet_mapSet_self _ _ _, by simp⟩
    · rw [mapGet_mapSet_ne _ _ idu2] at hm
      by_cases idu1 : id = user1.socketId
      · subst idu1
        rw [mapGet_mapSet_self] at hm
        cases hm
        exact ⟨_, mapGet_mapSet_self _ _ _, by simp⟩
      · rw [mapGet_mapSet_ne _ _ idu1] at hm
        obtain ⟨r, hrr, hid⟩ := hw.mapToRoom id rid2 hm
        have hne := hfresh rid2 r hrr
        exact ⟨r, by rw [mapGet_mapSet_ne _ _ hne]; exact hrr, hid⟩
  · intro rid2 r hrr id hid
    simp only at hrr hid ⊢
    by_cases hne : rid2 = s.nextId
    · subst hne
      rw [mapGet_mapSet_self] at hrr
      cases hrr
      simp only [List.mem_cons, List.mem_singleton, List.not_mem_nil, or_false] at hid
      rcases hid with hid | hid
      · subst hid
        by_cases he : user1.socketId = user2.socketId
        · rw [he, mapGet_mapSet_self]
        · rw [mapGet_mapSet_ne _ _ he, mapGet_mapSet_self]
      · subst hid
        rw [mapGet_mapSet_self]
    · rw [mapGet_mapSet_ne _ _ hne] at hrr
      have hm := hw.roomToMap rid2 r hrr id hid
      have hd1 : id ≠ user1.socketId := by
        intro e; rw [e, h1n] at hm; cases hm
      have hd2 : id ≠ user2.socketId := by
        intro e; rw [e, h2n] at hm; cases hm
      rw [mapGet_mapSet_ne _ _ hd2, mapGet_mapSet_ne _ _ hd1]
      exact hm
  · intro id ht hv
    simp only [inTextQueue, inVideoQueue, mem_queueIds_filter] at ht hv
    exact hw.exclTV id ht.1.1 hv.1.1
  · intro id ht hm
    simp only [inTextQueue, mem_queueIds_filter] at ht
    obtain ⟨⟨htq, hne1⟩, hne2⟩ := ht
    apply hw.exclTM id htq
    simp only [isMapped] at hm ⊢
    rwa [mapGet_mapSet_ne _ _ hne2, mapGet_mapSet_ne _ _ hne1] at hm
  · intro id hv hm
    simp only [inVideoQueue, mem_queueIds_filter] at hv
    obtain ⟨⟨hvq, hne1⟩, hne2⟩ := hv
    apply hw.exclVM id hvq
    simp only [isMapped] at hm ⊢
    rwa [mapGet_mapSet_ne _ _ hne2, mapGet_mapSet_ne _ _ hne1] at hm

/-! ### Component lemmas for `removeUserFromRoom` -/

theorem removeUserFromRoom_waitingQueue (s : MemStorage) (x : Nat) :
    (removeUserFromRoom s x).waitingQueue
      = s.waitingQueue.filter (fun u => u.socketId != x) := by
  unfold removeUserFromRoom removeRoom clearWebRTCState
  split
  next rid hm =>
    split
    next room hr =>
      split
      next room2 hr2 => rfl
      next => rfl
    next => rfl
  next => rfl

theorem removeUserFromRoom_videoWaitingQueue (s : MemStorage) (x : Nat) :
    (removeUserFromRoom s x).videoWaitingQueue
      = s.videoWaitingQueue.filter (fun u => u.socketId != x) := by
  unfold removeUserFromRoom removeRoom clearWebRTCState
  split
  next rid hm =>
    split
    next room hr =>
      split
      next room2 hr2 => rfl
      next => rfl
    next => rfl
  next => rfl

theorem removeUserFromRoom_nextId (s : MemStorage) (x : Nat) :
    (removeUserFromRoom s x).nextId = s.nextId := by
  unfold removeUserFromRoom removeRoom clearWebRTCState
  split
  next rid hm =>
    split
    next room hr =>
      split
      next room2 hr2 => rfl
      next => rfl
    next => rfl
  next => rfl

theorem removeUserFromRoom_clock (s : MemStorage) (x : Nat) :
    (removeUserFromRoom s x).clock = s.clock := by
  unfold removeUserFromRoom removeRoom clearWebRTCState
  split
  next rid hm =>
    split
    next room hr =>
      split
      next room2 hr2 => rfl
      next => rfl
    next => rfl
  next => rfl

theorem removeUserFromRoom_auditLogs (s : MemStorage) (x : Nat) :
    (removeUserFromRoom s x).auditLogs = s.auditLogs := by
  unfold removeUserFromRoom removeRoom clearWebRTCState
  split
  next rid hm =>
    split
    next room hr =>
      split
      next room2 hr2 => rfl
      next => rfl
    next => rfl
  next => rfl

theorem not_inTextQueue_removeUserFromRoom (s : MemStorage) (x : Nat) :
    ¬ inTextQueue (removeUserFromRoom s x) x := by
  intro h
  simp only [inTextQueue, removeUserFromRoom_waitingQueue, mem_queueIds_filter] at h
  exact h.2 rfl

theorem not_inVideoQueue_removeUserFromRoom (s : MemStorage) (x : Nat) :
    ¬ inVideoQueue (removeUserFromRoom s x) x := by
  intro h
  simp only [inVideoQueue, removeUserFromRoom_videoWaitingQueue, mem_queueIds_filter] at h
  exact h.2 rfl

theorem inTextQueue_removeUserFromRoom_mono {s : MemStorage} {x y : Nat}
    (h : inTextQueue (removeUserFromRoom s y) x) : inTextQueue s x := by
  simp only [inTextQueue, removeUserFromRoom_waitingQueue, mem_queueIds_filter] at h
  exact h.1

theorem inVideoQueue_removeUserFromRoom_mono {s : MemStorage} {x y : Nat}
    (h : inVideoQueue (removeUserFromRoom s y) x) : inVideoQueue s x := by
  simp only [inVideoQueue, removeUserFromRoom_videoWaitingQueue, mem_queueIds_filter] at h
  exact h.1

theorem isMapped_removeUserFromRoom_mono {s : MemStorage} {x y : Nat}
    (h : isMapped (removeUserFromRoom s y) x) : isMapped s x := by
  simp only [isMapped] at h ⊢
  unfold removeUserFromRoom removeRoom clearWebRTCState at h
  simp only [removeUserFromQueue, removeUserFromVideoQueue] at h
  revert h
  split
  next rid hm =>
    split
    next room hr =>
      split
      next room2 hr2 =>
        intro h
        simp only at h
        rw [mapGet_foldl_mapDelete] at h
        by_cases hmem : x ∈ room2.users
        · simp [hmem] at h
        · simpa [hmem] using h
      next => intro h; exact h
    next => intro h; exact h
  next => intro h; exact h

theorem not_isMapped_removeUserFromRoom {s : MemStorage} (hw : WF s) (x : Nat) :
    ¬ isMapped (removeUserFromRoom s x) x := by
  simp only [isMapped]
  cases hm : mapGet s.userRoomMap x with
  | none =>
    unfold removeUserFromRoom removeRoom clearWebRTCState
    rw [hm]
    simp [removeUserFromQueue, removeUserFromVideoQueue, hm]
  | some rid =>
    obtain ⟨r, hrr, hxr⟩ := hw.mapToRoom x rid hm
    unfold removeUserFromRoom removeRoom clearWebRTCState
    rw [hm]
    simp only
    rw [hrr]
    simp only [removeUserFromQueue, removeUserFromVideoQueue]
    rw [mapGet_foldl_mapDelete]
    simp [hxr]

theorem not_isMapped_removeUserFromRoom_member {s : MemStorage} {x y : Nat}
    {room : ChatRoom} (hroom : getRoomByUser s x = some room) (hy : y ∈ room.users) :
    ¬ isMapped (removeUserFromRoom s x) y := by
  simp only [getRoomByUser] at hroom
  cases hm : mapGet s.userRoomMap x with
  | none => rw [hm] at hroom; cases hroom
  | some rid =>
    rw [hm] at hroom
    simp only at hroom
    simp only [isMapped]
    unfold removeUserFromRoom removeRoom clearWebRTCState
    rw [hm]
    simp only
    rw [hroom]
    simp only [removeUserFromQueue, removeUserFromVideoQueue]
    rw [mapGet_foldl_mapDelete]
    simp [hy]

theorem selectPair_mem {w : List SocketUser} {avoid : List Nat} {u1 u2 : SocketUser}
    (h : selectPair w avoid = some (u1, u2)) : u1 ∈ w ∧ u2 ∈ w := by
  cases w with
  | nil => cases h
  | cons a w1 =>
    cases w1 with
    | nil => cases h
    | cons b t =>
      unfold selectPair at h
      simp only at h
      by_cases hc : 2 < (a :: b :: t).length ∧ avoid.length = 2
      · rw [if_pos hc] at h
        cases hfil : (a :: b :: t).filter (fun u => !(avoid.contains u.socketId)) with
        | nil =>
          rw [hfil] at h
          simp only [Option.some.injEq, Prod.mk.injEq] at h
          obtain ⟨h1, h2⟩ := h
          subst h1; subst h2
          exact ⟨List.mem_cons_self _ _, List.mem_cons_of_mem _ (List.mem_cons_self _ _)⟩
        | cons a1 tl =>
          cases tl with
          | nil =>
            rw [hfil] at h
            cases hfind : (a :: b :: t).find? (fun u => avoid.contains u.socketId) with
            | none => rw [hfind] at h; cases h
            | some uf =>
              rw [hfind] at h
              simp only [Option.some.injEq, Prod.mk.injEq] at h
              obtain ⟨h1, h2⟩ := h
              subst h1; subst h2
              constructor
              · exact List.mem_of_mem_filter (hfil ▸ List.mem_cons_self _ _)
              · exact List.mem_of_find?_eq_some hfind
          | cons a2 tl2 =>
            rw [hfil] at h
            simp only [Option.some.injEq, Prod.mk.injEq] at h
            obtain ⟨h1, h2⟩ := h
            subst h1; subst h2
            constructor
            · exact List.mem_of_mem_filter (hfil ▸ List.mem_cons_self _ _)
            · exact List.mem_of_mem_filter
                (hfil ▸ List.mem_cons_of_mem _ (List.mem_cons_self _ _))
      · rw [if_neg hc] at h
        simp only [Option.some.injEq, Prod.mk.injEq] at h
        obtain ⟨h1, h2⟩ := h
        subst h1; subst h2
        exact ⟨List.mem_cons_self _ _, List.mem_cons_of_mem _ (List.mem_cons_self _ _)⟩

theorem createRoom_room_get (s : MemStorage) (u1 u2 : SocketUser) :
    mapGet (createRoom s u1 u2).2.chatRooms (createRoom s u1 u2).1.id
      = some (createRoom s u1 u2).1 := by
  simp only [createRoom, removeUserFromQueue, removeUserFromVideoQueue]
  exact mapGet_mapSet_self _ _ _

theorem WF_setRoomFlag {s1 : MemStorage} (hw : WF s1) {rid : Nat} {room room2 : ChatRoom}
    (hget : mapGet s1.chatRooms rid = some room)
    (hid : room2.id = room.id) (husers : room2.users = room.users) :
    WF { s1 with chatRooms := mapSet s1.chatRooms rid room2 } := by
  have hmem := mem_of_mapGet_eq_some hget
  have hkey : room.id = rid := hw.roomKeyId _ hmem
  constructor
  · intro p hp
    rcases List.mem_cons.mp hp with hp | hp
    · rw [hp]; simpa [hid] using hkey
    · exact hw.roomKeyId p (List.mem_of_mem_filter hp)
  · intro p hp
    rcases List.mem_cons.mp hp with hp | hp
    · rw [hp]; simpa using hw.roomFresh (rid, room) hmem
    · exact hw.roomFresh p (List.mem_of_mem_filter hp)
  · exact keys_mapSet_nodup _ _ hw.roomKeysNodup
  · intro id rid2 hm
    obtain ⟨r, hrr, hidr⟩ := hw.mapToRoom id rid2 hm
    by_cases hne : rid2 = rid
    · refine ⟨room2, ?_, ?_⟩
      · rw [hne]; exact mapGet_mapSet_self _ _ _
      · rw [hne, hget] at hrr
        cases hrr
        rw [husers]
        exact hidr
    · exact ⟨r, by rw [mapGet_mapSet_ne _ _ hne]; exact hrr, hidr⟩
  · intro rid2 r hrr id hidr
    simp only at hrr
    by_cases hne : rid2 = rid
    · rw [hne, mapGet_mapSet_self] at hrr
      cases hrr
      rw [husers] at hidr
      rw [hne]
      exact hw.roomToMap rid room hget id hidr
    · rw [mapGet_mapSet_ne _ _ hne] at hrr
      exact hw.roomToMap rid2 r hrr id hidr
  · intro id ht hv
    exact hw.exclTV id ht hv
  · intro id ht hm
    exact hw.exclTM id ht hm
  · intro id hv hm
    exact hw.exclVM id hv hm

theorem WF_tryMatchText {s : MemStorage} (hw : WF s) (conns avoid : List Nat) :
    WF (tryMatchTextUsersWithPreference s conns avoid).1 := by
  unfold tryMatchTextUsersWithPreference
  by_cases hl : 2 ≤ (getWaitingUsers s).length
  · rw [if_pos hl]
    cases hsel : selectPair (getWaitingUsers s) avoid with
    | none => exact hw
    | some pair =>
      obtain ⟨user1, user2⟩ := pair
      obtain ⟨hm1, hm2⟩ := selectPair_mem hsel
      have ht1 : inTextQueue s user1.socketId := List.mem_map.mpr ⟨user1, hm1, rfl⟩
      have ht2 : inTextQueue s user2.socketId := List.mem_map.mpr ⟨user2, hm2, rfl⟩
      have hmap1 : ¬ isMapped s user1.socketId := hw.exclTM _ ht1
      have hmap2 : ¬ isMapped s user2.socketId := hw.exclTM _ ht2
      have hwc := WF_createRoom hw hmap1 hmap2
      rcases hcr : createRoom s user1 user2 with ⟨room, s1⟩
      rw [hcr] at hwc
      simp only at hwc
      simp only [hcr]
      by_cases hco : conns.contains user1.socketId ∧ conns.contains user2.socketId
      · rw [if_pos hco]
        exact WF_createAuditLog (WF_createAuditLog hwc _ _ _ _ _ _) _ _ _ _ _ _
      · rw [if_neg hco]
        exact hwc
  · rw [if_neg hl]
    exact hw

theorem WF_tryMatchVideo {s : MemStorage} (hw : WF s) (conns avoid : List Nat) :
    WF (tryMatchVideoUsersWithPreference s conns avoid).1 := by
  unfold tryMatchVideoUsersWithPreference
  by_cases hl : 2 ≤ (getWaitingVideoUsers s).length
  · rw [if_pos hl]
    cases hsel : selectPair (getWaitingVideoUsers s) avoid with
    | none => exact hw
    | some pair =>
      obtain ⟨user1, user2⟩ := pair
      obtain ⟨hm1, hm2⟩ := selectPair_mem hsel
      have hv1 : inVideoQueue s user1.socketId := List.mem_map.mpr ⟨user1, hm1, rfl⟩
      have hv2 : inVideoQueue s user2.socketId := List.mem_map.mpr ⟨user2, hm2, rfl⟩
      have hmap1 : ¬ isMapped s user1.socketId := hw.exclVM _ hv1
      have hmap2 : ¬ isMapped s user2.socketId := hw.exclVM _ hv2
      have hwc := WF_createRoom hw hmap1 hmap2
      have hget := createRoom_room_get s user1 user2
      rcases hcr : createRoom s user1 user2 with ⟨room, s1⟩
      rw [hcr] at hwc hget
      simp only at hwc hget
      have hwv : WF { s1 with chatRooms := mapSet s1.chatRooms room.id { room with isVideoCall := true } } :=
        WF_setRoomFlag hwc hget rfl rfl
      simp only [hcr]
      by_cases hco : conns.contains user1.socketId ∧ conns.contains user2.socketId
      · rw [if_pos hco]
        exact WF_createAuditLog (WF_createAuditLog hwv _ _ _ _ _ _) _ _ _ _ _ _
      · rw [if_neg hco]
        exact hwv
  · rw [if_neg hl]
    exact hw

/-! ### Handler-level invariant preservation -/

theorem handleJoinQueue_fst (s : MemStorage) (conns : List Nat) (socketId : Nat)
    (ip ua : String) :
    (handleJoinQueue s conns socketId ip ua).1 =
      (tryMatchTextUsersWithPreference
        (createAuditLog
          (addUserToQueue (removeUserFromRoom s socketId)
            { socketId := socketId, joinedAt := s.clock, ipAddress := ip, userAgent := ua })
          socketId none "join_queue" (some ip) (some ua) (some "User joined waiting queue"))
        conns []).1 := by
  unfold handleJoinQueue
  simp only
  split <;> rfl

theorem handleStartVideo_fst (s : MemStorage) (conns : List Nat) (socketId : Nat)
    (ip ua : String) :
    (handleStartVideo s conns socketId ip ua).1 =
      (tryMatchVideoUsersWithPreference
        (createAuditLog
          (addUserToVideoQueue (removeUserFromRoom s socketId)
            { socketId := socketId, joinedAt := s.clock, ipAddress := ip, userAgent := ua })
          socketId none "join_video_queue" (some ip) (some ua)
          (some "User joined video chat waiting queue"))
        conns []).1 := by
  unfold handleStartVideo
  simp only
  split <;> rfl

theorem WF_handleJoinQueue {s : MemStorage} (hw : WF s) (conns : List Nat)
    (socketId : Nat) (ip ua : String) : WF (handleJoinQueue s conns socketId ip ua).1 := by
  rw [handleJoinQueue_fst]
  apply WF_tryMatchText _ conns []
  apply WF_createAuditLog
  apply WF_addUserToQueue (WF_removeUserFromRoom hw socketId)
  · exact not_inVideoQueue_removeUserFromRoom s socketId
  · exact not_isMapped_removeUserFromRoom hw socketId

theorem WF_handleStartVideo {s : MemStorage} (hw : WF s) (conns : List Nat)
    (socketId : Nat) (ip ua : String) : WF (handleStartVideo s conns socketId ip ua).1 := by
  rw [handleStartVideo_fst]
  apply WF_tryMatchVideo _ conns []
  apply WF_createAuditLog
  apply WF_addUserToVideoQueue (WF_removeUserFromRoom hw socketId)
  · exact not_inTextQueue_removeUserFromRoom s socketId
  · exact not_isMapped_removeUserFromRoom hw socketId

theorem WF_handleSendMessage {s : MemStorage} (hw : WF s) (conns : List Nat)
    (socketId : Nat) (content : String) :
    WF (handleSendMessage s conns socketId content).1 := by
  unfold handleSendMessage
  split
  · exact hw
  · split
    · exact hw
    · split
      · have h1 : WF { s with nextId := s.nextId + 1 } :=
          WF_of_eq_fields hw rfl rfl rfl rfl (Nat.le_succ _)
        exact WF_createAuditLog h1 _ _ _ _ _ _
      · exact WF_removeUserFromRoom hw socketId

set_option maxHeartbeats 1600000 in
theorem WF_handleNextUser {s : MemStorage} (hw : WF s) (conns : List Nat)
    (socketId : Nat) (ip ua : String) (videoMode : Option Bool) :
    WF (handleNextUser s conns socketId ip ua videoMode).1 := by
  unfold handleNextUser
  split
  next hroom =>
    split
    · simp only
      split
      · split
        · exact hw
        · exact hw
      · exact WF_handleStartVideo hw conns socketId ip ua
    · simp only
      split
      · split
        · exact hw
        · exact hw
      · exact WF_handleJoinQueue hw conns socketId ip ua
  next room hroom =>
    simp only
    cases hfind : List.find? (fun u => u != socketId) room.users with
    | none =>
      simp only [Option.isSome_none, Bool.and_false]
      rw [if_neg Bool.false_ne_true]
      split
      · exact WF_handleStartVideo
          (WF_removeUserFromRoom (WF_createAuditLog hw _ _ _ _ _ _) socketId) conns socketId ip ua
      · exact WF_handleJoinQueue
          (WF_removeUserFromRoom (WF_createAuditLog hw _ _ _ _ _ _) socketId) conns socketId ip ua
    | some pid =>
      simp only [Option.isSome_some, Bool.and_true]
      have hw1 : WF (createAuditLog s socketId (some pid) "next_user" (some ip) (some ua)
          (some "User clicked next to find new partner")) := WF_createAuditLog hw _ _ _ _ _ _
      by_cases hbv : (match videoMode with | some b => b | none => room.isVideoCall) = true
      · rw [if_pos hbv, if_pos hbv]
        have hw2 := WF_clearWebRTCState hw1 room.id
        have hw3 := WF_removeUserFromRoom hw2 socketId
        have hw4 := WF_removeUserFromRoom hw3 pid
        have hnt_s := not_inTextQueue_removeUserFromRoom
          (clearWebRTCState (createAuditLog s socketId (some pid) "next_user" (some ip) (some ua)
            (some "User clicked next to find new partner")) room.id) socketId
        have hnm_s := not_isMapped_removeUserFromRoom hw2 socketId
        have hnt4_s : ¬ inTextQueue (removeUserFromRoom
            (removeUserFromRoom (clearWebRTCState (createAuditLog s socketId (some pid) "next_user"
              (some ip) (some ua) (some "User clicked next to find new partner")) room.id)
              socketId) pid) socketId :=
          fun h => hnt_s (inTextQueue_removeUserFromRoom_mono h)
        have hnm4_s : ¬ isMapped (removeUserFromRoom
            (removeUserFromRoom (clearWebRTCState (createAuditLog s socketId (some pid) "next_user"
              (some ip) (some ua) (some "User clicked next to find new partner")) room.id)
              socketId) pid) socketId :=
          fun h => hnm_s (isMapped_removeUserFromRoom_mono h)
        have hnt4_p := not_inTextQueue_removeUserFromRoom
          (removeUserFromRoom (clearWebRTCState (createAuditLog s socketId (some pid) "next_user"
            (some ip) (some ua) (some "User clicked next to find new partner")) room.id)
            socketId) pid
        have hnm4_p := not_isMapped_removeUserFromRoom hw3 pid
        refine WF_addUserToVideoQueue (WF_addUserToVideoQueue hw4 ?_ ?_) ?_ ?_
        · exact hnt4_s
        · exact hnm4_s
        · exact hnt4_p
        · exact hnm4_p
      · rw [if_neg hbv, if_neg hbv]
        have hw3 := WF_removeUserFromRoom hw1 socketId
        have hw4 := WF_removeUserFromRoom hw3 pid
        have hnv_s := not_inVideoQueue_removeUserFromRoom
          (createAuditLog s socketId (some pid) "next_user" (some ip) (some ua)
            (some "User clicked next to find new partner")) socketId
        have hnm_s := not_isMapped_removeUserFromRoom hw1 socketId
        have hnv4_s : ¬ inVideoQueue (removeUserFromRoom
            (removeUserFromRoom (createAuditLog s socketId (some pid) "next_user"
              (some ip) (some ua) (some "User clicked next to find new partner"))
              socketId) pid) socketId :=
          fun h => hnv_s (inVideoQueue_removeUserFromRoom_mono h)
        have hnm4_s : ¬ isMapped (removeUserFromRoom
            (removeUserFromRoom (createAuditLog s socketId (some pid) "next_user"
              (some ip) (some ua) (some "User clicked next to find new partner"))
              socketId) pid) socketId :=
          fun h => hnm_s (isMapped_removeUserFromRoom_mono h)
        have hnv4_p := not_inVideoQueue_removeUserFromRoom
          (removeUserFromRoom (createAuditLog s socketId (some pid) "next_user"
            (some ip) (some ua) (some "User clicked next to find new partner"))
            socketId) pid
        have hnm4_p := not_isMapped_removeUserFromRoom hw3 pid
        refine WF_addUserToQueue (WF_addUserToQueue hw4 ?_ ?_) ?_ ?_
        · exact hnv4_s
        · exact hnm4_s
        · exact hnv4_p
        · exact hnm4_p

theorem getRoomByUser_some {s : MemStorage} {x : Nat} {room : ChatRoom}
    (h : getRoomByUser s x = some room) :
    ∃ rid, mapGet s.userRoomMap x = some rid ∧ mapGet s.chatRooms rid = some room := by
  unfold getRoomByUser at h
  cases hm : mapGet s.userRoomMap x with
  | none => rw [hm] at h; cases h
  | some rid =>
    rw [hm] at h
    exact ⟨rid, rfl, h⟩

theorem isMapped_of_roomMember {s : MemStorage} {x y : Nat} {room : ChatRoom}
    (hw : WF s) (h : getRoomByUser s x = some room) (hy : y ∈ room.users) :
    isMapped s y := by
  obtain ⟨rid, hm, hr⟩ := getRoomByUser_some h
  have := hw.roomToMap rid room hr y hy
  simp [isMapped, this]

theorem removeUserFromRoom_createAuditLog_comm (s : MemStorage) (x a : Nat)
    (p : Option Nat) (ac : String) (i u d : Option String) :
    removeUserFromRoom (createAuditLog s a p ac i u d) x
      = createAuditLog (removeUserFromRoom s x) a p ac i u d := by
  unfold removeUserFromRoom removeRoom clearWebRTCState createAuditLog
    removeUserFromQueue removeUserFromVideoQueue
  simp only
  cases hm : mapGet s.userRoomMap x with
  | none => rfl
  | some rid =>
    simp only
    cases hr : mapGet s.chatRooms rid with
    | none => rfl
    | some room => rfl

theorem removeUserFromRoom_addUserToQueue_comm (s : MemStorage) {x : Nat}
    (pu : SocketUser) (hne : pu.socketId ≠ x) :
    removeUserFromRoom (addUserToQueue s pu) x
      = addUserToQueue (removeUserFromRoom s x) pu := by
  have hq : ∀ q : List SocketUser,
      (q.filter (fun v => v.socketId != pu.socketId) ++ [pu]).filter (fun v => v.socketId != x)
        = (q.filter (fun v => v.socketId != x)).filter (fun v => v.socketId != pu.socketId)
            ++ [pu] := by
    intro q
    rw [List.filter_append, List.filter_comm]
    congr 1
    simp [List.filter_cons, hne]
  unfold removeUserFromRoom removeRoom clearWebRTCState addUserToQueue
    removeUserFromQueue removeUserFromVideoQueue
  simp only
  cases hm : mapGet s.userRoomMap x with
  | none => simp [hq]
  | some rid =>
    simp only
    cases hr : mapGet s.chatRooms rid with
    | none => simp [hq]
    | some room => simp [hq]

theorem removeUserFromRoom_addUserToVideoQueue_comm (s : MemStorage) {x : Nat}
    (pu : SocketUser) (hne : pu.socketId ≠ x) :
    removeUserFromRoom (addUserToVideoQueue s pu) x
      = addUserToVideoQueue (removeUserFromRoom s x) pu := by
  have hq : ∀ q : List SocketUser,
      (q.filter (fun v => v.socketId != pu.socketId) ++ [pu]).filter (fun v => v.socketId != x)
        = (q.filter (fun v => v.socketId != x)).filter (fun v => v.socketId != pu.socketId)
            ++ [pu] := by
    intro q
    rw [List.filter_append, List.filter_comm]
    congr 1
    simp [List.filter_cons, hne]
  unfold removeUserFromRoom removeRoom clearWebRTCState addUserToVideoQueue
    removeUserFromQueue removeUserFromVideoQueue
  simp only
  cases hm : mapGet s.userRoomMap x with
  | none => simp [hq]
  | some rid =>
    simp only
    cases hr : mapGet s.chatRooms rid with
    | none => simp [hq]
    | some room => simp [hq]

theorem WF_handleReportUser {s : MemStorage} (hw : WF s) (conns : List Nat)
    (socketId : Nat) (ip ua : String) :
    WF (handleReportUser s conns socketId ip ua).1 := by
  unfold handleReportUser
  split
  · exact hw
  next room hroom =>
    simp only
    cases hfind : List.find? (fun u => u != socketId) room.users with
    | none => exact WF_handleNextUser hw conns socketId ip ua none
    | some pid =>
      exact WF_handleNextUser (WF_createAuditLog hw _ _ _ _ _ _) conns socketId ip ua none

theorem WF_handleWebRTCSignal {s : MemStorage} (hw : WF s) (conns : List Nat)
    (socketId : Nat) (signal : WebRTCSignal) :
    WF (handleWebRTCSignal s conns socketId signal).1 := by
  unfold handleWebRTCSignal
  split
  next room hroom =>
    split
    · split
      · exact hw
      · split
        · exact WF_createAuditLog hw _ _ _ _ _ _
        · exact WF_removeUserFromRoom hw socketId
    · exact hw
  next hroom => exact hw

set_option maxHeartbeats 1600000 in
theorem WF_handleDisconnect {s : MemStorage} (hw : WF s) (conns : List Nat)
    (socketId : Nat) (ip ua : String) :
    WF (handleDisconnect s conns socketId ip ua).1 := by
  unfold handleDisconnect
  cases hroom : getRoomByUser s socketId with
  | none => exact WF_removeUserFromRoom hw socketId
  | some room =>
    simp only
    have hwsa : WF (if room.isVideoCall then clearWebRTCState s room.id else s) := by
      split
      · exact WF_clearWebRTCState hw room.id
      · exact hw
    cases hfind : List.find? (fun u => u != socketId) room.users with
    | none =>
      simp only
      exact WF_removeUserFromRoom hwsa socketId
    | some pid =>
      have hpid : pid ∈ room.users := List.mem_of_find?_eq_some hfind
      have hpidne : pid ≠ socketId := by
        have := List.find?_some hfind
        simpa using this
      have hmapped : isMapped s pid := isMapped_of_roomMember hw hroom hpid
      have hnvS : ¬ inVideoQueue s pid := fun h => hw.exclVM pid h hmapped
      have hntS : ¬ inTextQueue s pid := fun h => hw.exclTM pid h hmapped
      simp only
      by_cases hc : conns.contains pid = true
      · by_cases hv : room.isVideoCall = true
        · simp only [if_pos hc, if_pos hv]
          rw [removeUserFromRoom_createAuditLog_comm,
            removeUserFromRoom_addUserToVideoQueue_comm _ _ hpidne]
          apply WF_createAuditLog
          refine WF_addUserToVideoQueue
            (WF_removeUserFromRoom (WF_clearWebRTCState hw room.id) socketId) ?_ ?_
          · intro h
            have h2 : inTextQueue (removeUserFromRoom (clearWebRTCState s room.id) socketId) pid := h
            have h3 : inTextQueue (clearWebRTCState s room.id) pid :=
              inTextQueue_removeUserFromRoom_mono h2
            exact hntS h3
          · exact not_isMapped_removeUserFromRoom_member hroom hpid
        · simp only [if_pos hc, if_neg hv]
          rw [removeUserFromRoom_createAuditLog_comm,
            removeUserFromRoom_addUserToQueue_comm _ _ hpidne]
          apply WF_createAuditLog
          refine WF_addUserToQueue (WF_removeUserFromRoom hw socketId) ?_ ?_
          · intro h
            have h2 : inVideoQueue (removeUserFromRoom s socketId) pid := h
            exact hnvS (inVideoQueue_removeUserFromRoom_mono h2)
          · exact not_isMapped_removeUserFromRoom_member hroom hpid
      · simp only [if_neg hc]
        exact WF_removeUserFromRoom (WF_createAuditLog hwsa _ _ _ _ _ _) socketId

theorem isMapped_of_inSomeRoom {s : MemStorage} (hw : WF s) {id : Nat}
    (h : inSomeRoom s id) : isMapped s id := by
  obtain ⟨p, hp, hid⟩ := h
  have hget : mapGet s.chatRooms p.1 = some p.2 :=
    mapGet_eq_some_of_mem_nodup hw.roomKeysNodup hp
  have := hw.roomToMap p.1 p.2 hget id hid
  simp [isMapped, this]

/-- The claim's mutual-exclusion property for one identifier: it is never
simultaneously in both queues, in the text queue and a room, or in the
video queue and a room. -/
def atMostOneMembership (s : MemStorage) (id : Nat) : Prop :=
  ¬ (inTextQueue s id ∧ inVideoQueue s id) ∧
  ¬ (inTextQueue s id ∧ inSomeRoom s id) ∧
  ¬ (inVideoQueue s id ∧ inSomeRoom s id)

theorem atMostOne_of_WF {s : MemStorage} (hw : WF s) (id : Nat) :
    atMostOneMembership s id := by
  refine ⟨?_, ?_, ?_⟩
  · rintro ⟨ht, hv⟩
    exact hw.exclTV id ht hv
  · rintro ⟨ht, hr⟩
    exact hw.exclTM id ht (isMapped_of_inSomeRoom hw hr)
  · rintro ⟨hv, hr⟩
    exact hw.exclVM id hv (isMapped_of_inSomeRoom hw hr)

theorem WF_step {s : MemStorage} (hw : WF s) (e : Event) : WF (step s e).1 := by
  cases e with
  | joinText conns socketId ip ua => exact WF_handleJoinQueue hw conns socketId ip ua
  | joinVideo conns socketId ip ua => exact WF_handleStartVideo hw conns socketId ip ua
  | sendMsg conns socketId content => exact WF_handleSendMessage hw conns socketId content
  | nextUser conns socketId ip ua vm => exact WF_handleNextUser hw conns socketId ip ua vm
  | report conns socketId ip ua => exact WF_handleReportUser hw conns socketId ip ua
  | disconnect conns socketId ip ua => exact WF_handleDisconnect hw conns socketId ip ua
  | timerMatchText conns avoid => exact WF_tryMatchText hw conns avoid
  | timerMatchVideo conns avoid => exact WF_tryMatchVideo hw conns avoid

theorem WF_foldl_step (evts : List Event) (s : MemStorage) (hw : WF s) :
    WF (evts.foldl (fun s e => (step s e).1) s) := by
  induction evts generalizing s with
  | nil => exact hw
  | cons e t ih => exact ih _ (WF_step hw e)

/-- C1: for every sequence of join-text, join-video, send-message, next,
report and disconnect handler turns (including the delayed match timers
they schedule), after each handler completes every connection identifier
is in at most one of the text queue, the video queue, and a room. -/
theorem claim_queue_room_mutual_exclusion (evts : List Event) (id : Nat) :
    atMostOneMembership (runEvents evts) id :=
  atMostOne_of_WF (WF_foldl_step evts initialStorage WF_initialStorage) id

/-- C2: immediately after `createRoom` returns, both participants are
absent from both waiting queues and both are mapped to the identifier of
the newly created room — established within the single (synchronous)
`createRoom` call. -/
theorem claim_createRoom_atomic (s : MemStorage) (user1 user2 : SocketUser) :
    ¬ inTextQueue (createRoom s user1 user2).2 user1.socketId ∧
    ¬ inTextQueue (createRoom s user1 user2).2 user2.socketId ∧
    ¬ inVideoQueue (createRoom s user1 user2).2 user1.socketId ∧
    ¬ inVideoQueue (createRoom s user1 user2).2 user2.socketId ∧
    mapGet (createRoom s user1 user2).2.userRoomMap user1.socketId
      = some (createRoom s user1 user2).1.id ∧
    mapGet (createRoom s user1 user2).2.userRoomMap user2.socketId
      = some (createRoom s user1 user2).1.id := by
  refine ⟨?_, ?_, ?_, ?_, ?_, ?_⟩
  · intro h
    simp only [createRoom, removeUserFromQueue, removeUserFromVideoQueue,
      inTextQueue, mem_queueIds_filter] at h
    exact h.1.2 rfl
  · intro h
    simp only [createRoom, removeUserFromQueue, removeUserFromVideoQueue,
      inTextQueue, mem_queueIds_filter] at h
    exact h.2 rfl
  · intro h
    simp only [createRoom, removeUserFromQueue, removeUserFromVideoQueue,
      inVideoQueue, mem_queueIds_filter] at h
    exact h.1.2 rfl
  · intro h
    simp only [createRoom, removeUserFromQueue, removeUserFromVideoQueue,
      inVideoQueue, mem_queueIds_filter] at h
    exact h.2 rfl
  · simp only [createRoom, removeUserFromQueue, removeUserFromVideoQueue]
    by_cases he : user1.socketId = user2.socketId
    · rw [he, mapGet_mapSet_self]
    · rw [mapGet_mapSet_ne _ _ he, mapGet_mapSet_self]
  · simp only [createRoom, removeUserFromQueue, removeUserFromVideoQueue]
    rw [mapGet_mapSet_self]

theorem selectPair_no_avoid (w1 w2 : SocketUser) (rest : List SocketUser) :
    selectPair (w1 :: w2 :: rest) [] = some (w1, w2) := by
  unfold selectPair
  simp only
  rw [if_neg (by simp)]

/-- C3 counterexample: the claim's own event sequence — users 1 and 2 join
and are paired, user 1 presses next (splitting them, re-queuing both and
scheduling the delayed avoid-match with avoid-pair `[1, 2]`), then user 3
joins making the queue `[1, 2, 3]`, and finally the delayed avoid-match
timer fires — ends with users 1 and 2 paired together again in the one
existing room while user 3 is the sole waiting user (the timer finds only
user 3 waiting and changes nothing).  The re-pairing happens because
user 3's join itself invokes the matchmaker with an EMPTY avoidance list
(`tryMatchTextUsersWithPreference()` at the end of `handleJoinQueue`).
This refutes the claim that the next successful match pairs C with either
A or B and never re-pairs `{A, B}` while C is available. -/
theorem claim_avoidance_event_trace_counterexample :
    ((runEvents
        [Event.joinText [1, 2, 3] 1 "" "", Event.joinText [1, 2, 3] 2 "" "",
         Event.nextUser [1, 2, 3] 1 "" "" none, Event.joinText [1, 2, 3] 3 "" "",
         Event.timerMatchText [1, 2, 3] [1, 2]]).chatRooms.map (fun p => p.2.users)
      = [[1, 2]]) ∧
    ((runEvents
        [Event.joinText [1, 2, 3] 1 "" "", Event.joinText [1, 2, 3] 2 "" "",
         Event.nextUser [1, 2, 3] 1 "" "" none, Event.joinText [1, 2, 3] 3 "" "",
         Event.timerMatchText [1, 2, 3] [1, 2]]).waitingQueue.map SocketUser.socketId
      = [3]) := by
  decide

/-- C3 amended: the avoidance preference does NOT govern the claimed event
sequence.  When the third user C joins a queue holding the just-split
avoid-pair `[A, B]`, the join handler itself invokes the matchmaker with
an empty avoidance list, which re-pairs the avoided pair `{A, B}` (the two
queue heads) and leaves C alone in the waiting queue.  Only a matchmaker
invocation that carries the avoid-pair — the delayed re-match timer
scheduled by the next action — prefers C: on queue `[A, B, C]` with
avoid-pair `{A, B}` it pairs C with one of A and B and does not re-pair
`{A, B}`. -/
theorem claim_avoidance_actual_behavior (s : MemStorage) (conns : List Nat)
    (A B : SocketUser) (cid : Nat) (ip ua : String)
    (hq : s.waitingQueue = [A, B])
    (hab : A.socketId ≠ B.socketId)
    (hca : cid ≠ A.socketId) (hcb : cid ≠ B.socketId)
    (hm : mapGet s.userRoomMap cid = none) :
    (∃ p ∈ (handleJoinQueue s conns cid ip ua).1.chatRooms,
        p.2.users = [A.socketId, B.socketId]) ∧
    (handleJoinQueue s conns cid ip ua).1.waitingQueue.map SocketUser.socketId = [cid] ∧
    ∀ Cu : SocketUser, Cu.socketId = cid →
      ∃ partner, selectPair [A, B, Cu] [A.socketId, B.socketId] = some (Cu, partner) ∧
        (partner = A ∨ partner = B) := by
  have hAsym : A.socketId ≠ cid := Ne.symm hca
  have hBsym : B.socketId ≠ cid := Ne.symm hcb
  have hBA : B.socketId ≠ A.socketId := Ne.symm hab
  rw [handleJoinQueue_fst]
  set X := createAuditLog
      (addUserToQueue (removeUserFromRoom s cid)
        { socketId := cid, joinedAt := s.clock, ipAddress := ip, userAgent := ua })
      cid none "join_queue" (some ip) (some ua) (some "User joined waiting queue") with hXdef
  have hq3 : X.waitingQueue
      = [A, B, { socketId := cid, joinedAt := s.clock, ipAddress := ip, userAgent := ua }] := by
    rw [hXdef]
    show (addUserToQueue (removeUserFromRoom s cid)
        { socketId := cid, joinedAt := s.clock, ipAddress := ip, userAgent := ua }).waitingQueue
      = _
    simp [addUserToQueue, removeUserFromQueue, removeUserFromRoom_waitingQueue, hq,
      hAsym, hBsym]
  have hwq : ((createRoom X A B).2.waitingQueue).map SocketUser.socketId = [cid] := by
    have hcrq : (createRoom X A B).2.waitingQueue
        = (X.waitingQueue.filter (fun u => u.socketId != A.socketId)).filter
            (fun u => u.socketId != B.socketId) := rfl
    rw [hcrq, hq3]
    simp [List.filter_cons, hBA, hca, hcb]
  unfold tryMatchTextUsersWithPreference
  simp only [getWaitingUsers]
  rw [hq3]
  rw [if_pos (by simp), selectPair_no_avoid]
  dsimp only
  refine ⟨?_, ?_, ?_⟩
  · split
    · exact ⟨_, List.mem_cons_self _ _, rfl⟩
    · exact ⟨_, List.mem_cons_self _ _, rfl⟩
  · split
    · exact hwq
    · exact hwq
  · intro Cu hCu
    have hfil : List.filter (fun u => !([A.socketId, B.socketId].contains u.socketId))
        [A, B, Cu] = [Cu] := by
      simp [List.filter_cons, hCu, hca, hcb]
    have hfind : List.find? (fun u => [A.socketId, B.socketId].contains u.socketId)
        [A, B, Cu] = some A := by
      simp [List.find?]
    refine ⟨A, ?_, Or.inl rfl⟩
    unfold selectPair
    simp only
    rw [if_pos (by simp), hfil, hfind]

/-- C5: the matchmaker's selection follows the specified algorithm:
(1) fewer than two waiting entries yield no match and no state change;
(2) with an empty avoidance set the two queue heads (the two oldest
entries) are paired; (3) with more than two entries and a two-element
avoid-pair, the first two non-avoided entries are paired when at least two
exist; (4) when exactly one non-avoided entry exists it is paired with the
first avoided entry; (5) when every waiting entry is avoided the two heads
are paired anyway; and (6) with exactly the two avoided entries waiting,
the avoidance branch is not taken and the two heads are paired anyway. -/
theorem claim_matchmaker_algorithm :
    (∀ (s : MemStorage) (conns avoid : List Nat), (getWaitingUsers s).length < 2 →
        tryMatchTextUsersWithPreference s conns avoid = (s, [])) ∧
    (∀ (w1 w2 : SocketUser) (rest : List SocketUser),
        selectPair (w1 :: w2 :: rest) [] = some (w1, w2)) ∧
    (∀ (w1 w2 : SocketUser) (rest : List SocketUser) (avoid : List Nat)
        (a1 a2 : SocketUser) (arest : List SocketUser),
        2 < (w1 :: w2 :: rest).length → avoid.length = 2 →
        (w1 :: w2 :: rest).filter (fun u => !(avoid.contains u.socketId))
          = a1 :: a2 :: arest →
        selectPair (w1 :: w2 :: rest) avoid = some (a1, a2)) ∧
    (∀ (w1 w2 : SocketUser) (rest : List SocketUser) (avoid : List Nat)
        (a1 u2 : SocketUser),
        2 < (w1 :: w2 :: rest).length → avoid.length = 2 →
        (w1 :: w2 :: rest).filter (fun u => !(avoid.contains u.socketId)) = [a1] →
        (w1 :: w2 :: rest).find? (fun u => avoid.contains u.socketId) = some u2 →
        selectPair (w1 :: w2 :: rest) avoid = some (a1, u2)) ∧
    (∀ (w1 w2 : SocketUser) (rest : List SocketUser) (avoid : List Nat),
        2 < (w1 :: w2 :: rest).length → avoid.length = 2 →
        (w1 :: w2 :: rest).filter (fun u => !(avoid.contains u.socketId)) = [] →
        selectPair (w1 :: w2 :: rest) avoid = some (w1, w2)) ∧
    (∀ (w1 w2 : SocketUser) (avoid : List Nat),
        selectPair [w1, w2] avoid = some (w1, w2)) := by
  refine ⟨?_, ?_, ?_, ?_, ?_, ?_⟩
  · intro s conns avoid hlen
    unfold tryMatchTextUsersWithPreference
    rw [if_neg (by omega)]
  · intro w1 w2 rest
    unfold selectPair
    simp only
    rw [if_neg (by simp)]
  · intro w1 w2 rest avoid a1 a2 arest hlen hav hfil
    unfold selectPair
    simp only
    rw [if_pos ⟨hlen, hav⟩, hfil]
  · intro w1 w2 rest avoid a1 u2 hlen hav hfil hfind
    unfold selectPair
    simp only
    rw [if_pos ⟨hlen, hav⟩, hfil, hfind]
  · intro w1 w2 rest avoid hlen hav hfil
    unfold selectPair
    simp only
    rw [if_pos ⟨hlen, hav⟩, hfil]
  · intro w1 w2 avoid
    unfold selectPair
    simp only
    rw [if_neg (by simp)]

theorem claim_avoidance_actual_behavior_witness :
    (∃ p ∈ (handleJoinQueue
          ⟨[], [⟨1, 0, "", ""⟩, ⟨2, 0, "", ""⟩], [], [], [], [], 0, 0⟩
          [1, 2, 3] 3 "" "").1.chatRooms,
        p.2.users = [1, 2]) ∧
    (handleJoinQueue ⟨[], [⟨1, 0, "", ""⟩, ⟨2, 0, "", ""⟩], [], [], [], [], 0, 0⟩
        [1, 2, 3] 3 "" "").1.waitingQueue.map SocketUser.socketId = [3] ∧
    ∀ Cu : SocketUser, Cu.socketId = 3 →
      ∃ partner, selectPair [⟨1, 0, "", ""⟩, ⟨2, 0, "", ""⟩, Cu] [1, 2] = some (Cu, partner) ∧
        (partner = (⟨1, 0, "", ""⟩ : SocketUser) ∨ partner = (⟨2, 0, "", ""⟩ : SocketUser)) :=
  claim_avoidance_actual_behavior _ [1, 2, 3] ⟨1, 0, "", ""⟩ ⟨2, 0, "", ""⟩ 3 "" ""
    rfl (by decide) (by decide) (by decide) rfl

theorem claim_matchmaker_algorithm_witness :
    tryMatchTextUsersWithPreference initialStorage [] [] = (initialStorage, []) ∧
    selectPair [(⟨1, 0, "", ""⟩ : SocketUser), ⟨2, 0, "", ""⟩, ⟨3, 0, "", ""⟩, ⟨4, 0, "", ""⟩] []
      = some (⟨1, 0, "", ""⟩, ⟨2, 0, "", ""⟩) ∧
    selectPair [(⟨1, 0, "", ""⟩ : SocketUser), ⟨2, 0, "", ""⟩, ⟨3, 0, "", ""⟩, ⟨4, 0, "", ""⟩]
        [10, 11] = some (⟨1, 0, "", ""⟩, ⟨2, 0, "", ""⟩) ∧
    selectPair [(⟨1, 0, "", ""⟩ : SocketUser), ⟨2, 0, "", ""⟩, ⟨3, 0, "", ""⟩] [1, 2]
      = some (⟨3, 0, "", ""⟩, ⟨1, 0, "", ""⟩) ∧
    selectPair [(⟨1, 0, "", ""⟩ : SocketUser), ⟨2, 0, "", ""⟩, ⟨1, 0, "", ""⟩] [1, 2]
      = some (⟨1, 0, "", ""⟩, ⟨2, 0, "", ""⟩) ∧
    selectPair [(⟨1, 0, "", ""⟩ : SocketUser), ⟨2, 0, "", ""⟩] [1, 2]
      = some (⟨1, 0, "", ""⟩, ⟨2, 0, "", ""⟩) := by
  obtain ⟨h1, h2, h3, h4, h5, h6⟩ := claim_matchmaker_algorithm
  refine ⟨h1 initialStorage [] [] (by decide), h2 _ _ _, ?_, ?_, ?_, h6 _ _ _⟩
  · exact h3 _ _ [⟨3, 0, "", ""⟩, ⟨4, 0, "", ""⟩] [10, 11] _ _ [⟨3, 0, "", ""⟩, ⟨4, 0, "", ""⟩]
      (by decide) (by decide) rfl
  · exact h4 _ _ [⟨3, 0, "", ""⟩] [1, 2] _ _ (by decide) (by decide) rfl rfl
  · exact h5 _ _ [⟨1, 0, "", ""⟩] [1, 2] (by decide) (by decide) rfl

/-- C4 counterexample: concrete state with users 1 and 2 paired in room 0
and the partner's socket (2) not open.  `handleSendMessage` sends the
sender the partner-disconnected notice and tears the room down, but the
resulting state has user 1 in NO queue (empty text and video queues) and
the handler emits no waiting or paired event: the remaining party is not
re-queued and no match is re-attempted, refuting the claim's
fall-through-to-re-queue behaviour. -/
theorem claim_send_message_recovery_counterexample :
    handleSendMessage
        ⟨[], [], [], [(0, ⟨0, [1, 2], 0, false⟩)], [(1, 0), (2, 0)], [], 1, 0⟩ [1] 1 "hello"
      = (⟨[], [], [], [], [], [], 1, 0⟩,
         [(1, OutEvent.partnerDisconnected "Your partner has disconnected")]) := by
  decide

set_option maxRecDepth 4000 in
/-- C4 amended: when the partner's socket is gone, `handleSendMessage`
sends the sender exactly one partner-disconnected notice and removes the
sender from its room (which also removes the sender from both queues); it
then returns without re-queuing the sender and without re-attempting a
match. -/
theorem claim_send_message_partner_gone (s : MemStorage) (conns : List Nat)
    (socketId : Nat) (content : String) (room : ChatRoom) (pid : Nat)
    (hroom : getRoomByUser s socketId = some room)
    (hfind : room.users.find? (fun u => u != socketId) = some pid)
    (hc : conns.contains pid = false) :
    handleSendMessage s conns socketId content
      = (removeUserFromRoom s socketId,
         [(socketId, OutEvent.partnerDisconnected "Your partner has disconnected")]) ∧
    ¬ inTextQueue (handleSendMessage s conns socketId content).1 socketId ∧
    ¬ inVideoQueue (handleSendMessage s conns socketId content).1 socketId := by
  have heq : handleSendMessage s conns socketId content
      = (removeUserFromRoom s socketId,
         [(socketId, OutEvent.partnerDisconnected "Your partner has disconnected")]) := by
    unfold handleSendMessage
    rw [hroom]
    dsimp only
    rw [hfind]
    dsimp only
    rw [if_neg (by simpa using hc)]
  refine ⟨heq, ?_, ?_⟩
  · rw [heq]
    exact not_inTextQueue_removeUserFromRoom s socketId
  · rw [heq]
    exact not_inVideoQueue_removeUserFromRoom s socketId

theorem claim_send_message_partner_gone_witness :
    handleSendMessage
        ⟨[], [], [], [(0, ⟨0, [1, 2], 0, false⟩)], [(1, 0), (2, 0)], [], 1, 0⟩ [1] 1 "hi"
      = (removeUserFromRoom
          ⟨[], [], [], [(0, ⟨0, [1, 2], 0, false⟩)], [(1, 0), (2, 0)], [], 1, 0⟩ 1,
         [(1, OutEvent.partnerDisconnected "Your partner has disconnected")]) ∧
    ¬ inTextQueue (handleSendMessage
        ⟨[], [], [], [(0, ⟨0, [1, 2], 0, false⟩)], [(1, 0), (2, 0)], [], 1, 0⟩ [1] 1 "hi").1 1 ∧
    ¬ inVideoQueue (handleSendMessage
        ⟨[], [], [], [(0, ⟨0, [1, 2], 0, false⟩)], [(1, 0), (2, 0)], [], 1, 0⟩ [1] 1 "hi").1 1 :=
  claim_send_message_partner_gone _ [1] 1 "hi" ⟨0, [1, 2], 0, false⟩ 2
    (by decide) (by decide) (by decide)

set_option maxRecDepth 4000 in
/-- C6: with a reachable partner, sending content emits exactly one
message event to the partner and exactly one message-sent confirmation to
the sender (the output list is exactly those two transmissions), the
delivered content is the input truncated to the 1000-character cap used by
the source (`content.substring(0, 1000)`), and the delivered length never
exceeds that cap. -/
theorem claim_message_relay (s : MemStorage) (conns : List Nat) (socketId : Nat)
    (content : String) (room : ChatRoom) (pid : Nat)
    (hroom : getRoomByUser s socketId = some room)
    (hfind : room.users.find? (fun u => u != socketId) = some pid)
    (hc : conns.contains pid = true) :
    (handleSendMessage s conns socketId content).2
      = [(pid, OutEvent.chatMessage
            { id := s.nextId, content := content.take 1000,
              timestamp := s.clock, isOwn := false }),
         (socketId, OutEvent.messageSent
            { id := s.nextId, content := content.take 1000,
              timestamp := s.clock, isOwn := true })] ∧
    (content.take 1000).length ≤ 1000 := by
  constructor
  · unfold handleSendMessage
    rw [hroom]
    dsimp only
    rw [hfind]
    dsimp only
    rw [if_pos hc]
  · have h : (content.take 1000).data = content.data.take 1000 := String.data_take content 1000
    rw [← String.length_data, h]
    exact List.length_take_le _ _

theorem claim_message_relay_witness :
    ((handleSendMessage
        ⟨[], [], [], [(0, ⟨0, [1, 2], 0, false⟩)], [(1, 0), (2, 0)], [], 1, 0⟩ [1, 2] 1
        (String.mk (List.replicate 5000 'a'))).2
      = [(2, OutEvent.chatMessage
            { id := 1, content := (String.mk (List.replicate 5000 'a')).take 1000,
              timestamp := 0, isOwn := false }),
         (1, OutEvent.messageSent
            { id := 1, content := (String.mk (List.replicate 5000 'a')).take 1000,
              timestamp := 0, isOwn := true })] ∧
    ((String.mk (List.replicate 5000 'a')).take 1000).length ≤ 1000) ∧
    ((String.mk (List.replicate 5000 'a')).take 1000).length = 1000 :=
  ⟨claim_message_relay _ [1, 2] 1 _ ⟨0, [1, 2], 0, false⟩ 2
      (by decide) (by decide) (by decide),
   by
    have h : ((String.mk (List.replicate 5000 'a')).take 1000).data
        = (List.replicate 5000 'a').take 1000 := String.data_take _ _
    rw [← String.length_data, h, List.take_replicate, List.length_replicate]
    omega⟩

/-- C7 counterexample: a well-formed payload whose type tag is unknown
(the switch's `default` case) produces NO outbound event at all — in
particular no generic error event — refuting the claim that the server
responds to unrecognized payloads with an error event.  (State is indeed
unchanged.) -/
theorem claim_protocol_error_counterexample :
    handleRawMessage initialStorage [] 0 "" "" (Inbound.parsed (ClientMessage.unknownType "bogus"))
      = (initialStorage, []) := by
  decide

/-- C7 amended: a malformed payload (JSON parse failure) is answered with
the generic error event and causes no state change; a well-formed payload
with an unrecognized type tag causes no state change but receives no
response at all (it is only logged). -/
theorem claim_protocol_error_handling (s : MemStorage) (conns : List Nat)
    (socketId : Nat) (ip ua tag : String) :
    handleRawMessage s conns socketId ip ua Inbound.malformed
      = (s, [(socketId, OutEvent.errorEvent "Failed to process message")]) ∧
    handleRawMessage s conns socketId ip ua (Inbound.parsed (ClientMessage.unknownType tag))
      = (s, []) :=
  ⟨rfl, rfl⟩

/-- C8 counterexample: with queue `[1, 2]` and neither socket in the OPEN
ready-state, the matchmaker still creates the room (one room referencing
both users exists afterwards) but writes NO audit records at all — the
`paired` audit records and notifications are guarded by `if (ws1 && ws2)`
— refuting the claim that every room created by the matchmaker produces
exactly two audit records. -/
theorem claim_pairing_audit_counterexample :
    (tryMatchTextUsersWithPreference
        ⟨[], [⟨1, 0, "", ""⟩, ⟨2, 0, "", ""⟩], [], [], [], [], 0, 0⟩ [] []).1.chatRooms
      = [(0, ⟨0, [1, 2], 0, false⟩)] ∧
    (tryMatchTextUsersWithPreference
        ⟨[], [⟨1, 0, "", ""⟩, ⟨2, 0, "", ""⟩], [], [], [], [], 0, 0⟩ [] []).1.auditLogs
      = [] := by
  decide

/-- C8 amended: every successful pairing whose two selected participants
both have open sockets appends exactly two audit records, one per
participant, symmetric, each referencing the other participant's
identifier as partner. -/
theorem claim_pairing_audit_records (s : MemStorage) (conns avoid : List Nat)
    (user1 user2 : SocketUser)
    (hlen : 2 ≤ (getWaitingUsers s).length)
    (hsel : selectPair (getWaitingUsers s) avoid = some (user1, user2))
    (hc1 : conns.contains user1.socketId = true)
    (hc2 : conns.contains user2.socketId = true) :
    ∃ l1 l2 : AuditLog,
      (tryMatchTextUsersWithPreference s conns avoid).1.auditLogs
        = s.auditLogs ++ [l1, l2] ∧
      l1.action = "paired" ∧ l2.action = "paired" ∧
      l1.socketId = user1.socketId ∧ l1.partnerSocketId = some user2.socketId ∧
      l2.socketId = user2.socketId ∧ l2.partnerSocketId = some user1.socketId := by
  unfold tryMatchTextUsersWithPreference
  rw [if_pos hlen, hsel]
  dsimp only
  rcases hcr : createRoom s user1 user2 with ⟨room, s1⟩
  have hAud : s1.auditLogs = s.auditLogs := by
    have h := congrArg (fun p => (p.2).auditLogs) hcr
    simpa [createRoom, removeUserFromQueue, removeUserFromVideoQueue] using h.symm
  rw [if_pos ⟨hc1, hc2⟩]
  dsimp only
  refine ⟨{ id := s1.nextId, socketId := user1.socketId,
            partnerSocketId := some user2.socketId, action := "paired",
            ipAddress := some user1.ipAddress, userAgent := some user1.userAgent,
            timestamp := s1.clock,
            details := some ("Paired with " ++ toString user2.socketId) },
          { id := s1.nextId + 1, socketId := user2.socketId,
            partnerSocketId := some user1.socketId, action := "paired",
            ipAddress := some user2.ipAddress, userAgent := some user2.userAgent,
            timestamp := s1.clock + 1,
            details := some ("Paired with " ++ toString user1.socketId) },
          ?_, rfl, rfl, rfl, rfl, rfl, rfl⟩
  simp [createAuditLog, hAud]

theorem claim_pairing_audit_records_witness :
    ∃ l1 l2 : AuditLog,
      (tryMatchTextUsersWithPreference
          ⟨[], [⟨1, 0, "", ""⟩, ⟨2, 0, "", ""⟩], [], [], [], [], 0, 0⟩ [1, 2] []).1.auditLogs
        = ([] : List AuditLog) ++ [l1, l2] ∧
      l1.action = "paired" ∧ l2.action = "paired" ∧
      l1.socketId = 1 ∧ l1.partnerSocketId = some 2 ∧
      l2.socketId = 2 ∧ l2.partnerSocketId = some 1 :=
  claim_pairing_audit_records _ [1, 2] [] ⟨1, 0, "", ""⟩ ⟨2, 0, "", ""⟩
    (by decide) (by decide) (by decide) (by decide)

/-- C9: the audit query surface.  The HTTP endpoint body requests 50
records; the storage-level default is 100; and for every stored log set
and every limit, the returned list has at most `limit` entries, is sorted
by timestamp descending (newest first), and consists of the newest stored
records up to the bound: the remaining records are a permutation
complement, all of them no newer than anything returned. -/
theorem claim_audit_query_surface (s : MemStorage) :
    apiAuditLogs s = getAuditLogs s 50 ∧
    getAuditLogsDefault s = getAuditLogs s 100 ∧
    ∀ limit : Nat,
      (getAuditLogs s limit).length ≤ limit ∧
      (getAuditLogs s limit).Pairwise (fun a b => b.timestamp ≤ a.timestamp) ∧
      ∃ rest, ((getAuditLogs s limit) ++ rest).Perm s.auditLogs ∧
        ∀ a ∈ getAuditLogs s limit, ∀ b ∈ rest, b.timestamp ≤ a.timestamp := by
  refine ⟨rfl, rfl, ?_⟩
  intro limit
  have htrans : ∀ a b c : AuditLog,
      decide (b.timestamp ≤ a.timestamp) = true →
      decide (c.timestamp ≤ b.timestamp) = true →
      decide (c.timestamp ≤ a.timestamp) = true := by
    intro a b c hab hbc
    rw [decide_eq_true_eq] at hab hbc ⊢
    omega
  have htotal : ∀ a b : AuditLog,
      (decide (b.timestamp ≤ a.timestamp) || decide (a.timestamp ≤ b.timestamp)) = true := by
    intro a b
    rcases Nat.le_total a.timestamp b.timestamp with h | h <;> simp [h]
  have hp : List.Pairwise
      (fun a b : AuditLog => decide (b.timestamp ≤ a.timestamp) = true)
      (s.auditLogs.mergeSort (fun a b => b.timestamp ≤ a.timestamp)) :=
    List.sorted_mergeSort htrans htotal s.auditLogs
  refine ⟨List.length_take_le _ _, ?_, ?_⟩
  · have hp2 := List.Pairwise.sublist (List.take_sublist limit _) hp
    exact hp2.imp (fun h => of_decide_eq_true h)
  · refine ⟨(s.auditLogs.mergeSort (fun a b => b.timestamp ≤ a.timestamp)).drop limit, ?_, ?_⟩
    · show ((s.auditLogs.mergeSort (fun a b => b.timestamp ≤ a.timestamp)).take limit
          ++ (s.auditLogs.mergeSort (fun a b => b.timestamp ≤ a.timestamp)).drop limit).Perm
          s.auditLogs
      rw [List.take_append_drop]
      exact List.mergeSort_perm _ _
    · intro a ha b hb
      have h1 := List.take_append_drop limit
        (s.auditLogs.mergeSort (fun a b => b.timestamp ≤ a.timestamp))
      rw [← h1] at hp
      have h2 := (List.pairwise_append.mp hp).2.2
      exact of_decide_eq_true (h2 a ha b hb)

theorem memStorage_ext {a b : MemStorage}
    (h1 : a.auditLogs = b.auditLogs) (h2 : a.waitingQueue = b.waitingQueue)
    (h3 : a.videoWaitingQueue = b.videoWaitingQueue) (h4 : a.chatRooms = b.chatRooms)
    (h5 : a.userRoomMap = b.userRoomMap) (h6 : a.webrtcState = b.webrtcState)
    (h7 : a.nextId = b.nextId) (h8 : a.clock = b.clock) : a = b := by
  cases a
  cases b
  simp_all

theorem filter_socketId_idem (q : List SocketUser) (x : Nat) :
    (q.filter (fun u => u.socketId != x)).filter (fun u => u.socketId != x)
      = q.filter (fun u => u.socketId != x) := by
  rw [List.filter_filter]
  congr 1
  funext u
  exact Bool.and_self _

theorem removeUserFromRoom_of_mapGet_none {s : MemStorage} {x : Nat}
    (hm : mapGet s.userRoomMap x = none) :
    removeUserFromRoom s x
      = removeUserFromVideoQueue (removeUserFromQueue s x) x := by
  unfold removeUserFromRoom
  rw [hm]

theorem removeUserFromRoom_of_room_missing {s : MemStorage} {x rid : Nat}
    (hm : mapGet s.userRoomMap x = some rid)
    (hr : mapGet s.chatRooms rid = none) :
    removeUserFromRoom s x
      = removeUserFromVideoQueue (removeUserFromQueue s x) x := by
  unfold removeUserFromRoom
  rw [hm]
  dsimp only
  rw [hr]

theorem removeUserFromRoom_of_room_found {s : MemStorage} {x rid : Nat} {room : ChatRoom}
    (hm : mapGet s.userRoomMap x = some rid)
    (hr : mapGet s.chatRooms rid = some room) :
    removeUserFromRoom s x
      = removeUserFromVideoQueue (removeUserFromQueue (removeRoom s rid) x) x := by
  unfold removeUserFromRoom
  rw [hm]
  dsimp only
  rw [hr]

theorem removeRoom_of_some {s : MemStorage} {rid : Nat} {room : ChatRoom}
    (hr : mapGet s.chatRooms rid = some room) :
    removeRoom s rid
      = clearWebRTCState
          { s with userRoomMap := room.users.foldl (fun m u => mapDelete m u) s.userRoomMap,
                   chatRooms := mapDelete s.chatRooms rid } rid := by
  unfold removeRoom
  rw [hr]

theorem queue_removals_idem (s : MemStorage) (x : Nat) :
    removeUserFromVideoQueue (removeUserFromQueue
        (removeUserFromVideoQueue (removeUserFromQueue s x) x) x) x
      = removeUserFromVideoQueue (removeUserFromQueue s x) x := by
  apply memStorage_ext <;>
    simp [removeUserFromQueue, removeUserFromVideoQueue, filter_socketId_idem]

theorem removeUserFromRoom_idem (s : MemStorage) (x : Nat) :
    removeUserFromRoom (removeUserFromRoom s x) x = removeUserFromRoom s x := by
  cases hm : mapGet s.userRoomMap x with
  | none =>
    rw [removeUserFromRoom_of_mapGet_none hm]
    have hm2 : mapGet (removeUserFromVideoQueue (removeUserFromQueue s x) x).userRoomMap x
        = none := hm
    rw [removeUserFromRoom_of_mapGet_none hm2]
    exact queue_removals_idem s x
  | some rid =>
    cases hr : mapGet s.chatRooms rid with
    | none =>
      rw [removeUserFromRoom_of_room_missing hm hr]
      have hm2 : mapGet (removeUserFromVideoQueue (removeUserFromQueue s x) x).userRoomMap x
          = some rid := hm
      have hr2 : mapGet (removeUserFromVideoQueue (removeUserFromQueue s x) x).chatRooms rid
          = none := hr
      rw [removeUserFromRoom_of_room_missing hm2 hr2]
      exact queue_removals_idem s x
    | some room =>
      rw [removeUserFromRoom_of_room_found hm hr, removeRoom_of_some hr]
      by_cases hx : x ∈ room.users
      · have hm2 : mapGet (removeUserFromVideoQueue (removeUserFromQueue
            (clearWebRTCState
              { s with userRoomMap := room.users.foldl (fun m u => mapDelete m u) s.userRoomMap,
                       chatRooms := mapDelete s.chatRooms rid } rid) x) x).userRoomMap x
            = none := by
          show mapGet (room.users.foldl (fun m u => mapDelete m u) s.userRoomMap) x = none
          rw [mapGet_foldl_mapDelete]
          simp [hx]
        rw [removeUserFromRoom_of_mapGet_none hm2]
        exact queue_removals_idem _ x
      · have hm2 : mapGet (removeUserFromVideoQueue (removeUserFromQueue
            (clearWebRTCState
              { s with userRoomMap := room.users.foldl (fun m u => mapDelete m u) s.userRoomMap,
                       chatRooms := mapDelete s.chatRooms rid } rid) x) x).userRoomMap x
            = some rid := by
          show mapGet (room.users.foldl (fun m u => mapDelete m u) s.userRoomMap) x = some rid
          rw [mapGet_foldl_mapDelete]
          simp [hx, hm]
        have hr2 : mapGet (removeUserFromVideoQueue (removeUserFromQueue
            (clearWebRTCState
              { s with userRoomMap := room.users.foldl (fun m u => mapDelete m u) s.userRoomMap,
                       chatRooms := mapDelete s.chatRooms rid } rid) x) x).chatRooms rid
            = none := by
          show mapGet (mapDelete s.chatRooms rid) rid = none
          exact mapGet_mapDelete_self _ _
        rw [removeUserFromRoom_of_room_missing hm2 hr2]
        exact queue_removals_idem _ x

/-- C10: `removeUserFromRoom` is idempotent — applying it twice with the
same identifier yields exactly the same storage state (queues, rooms,
user-to-room map, WebRTC state and counters) as applying it once; and for
an identifier that is in no room it only removes the identifier from both
waiting queues, leaving every other field unchanged. -/
theorem claim_removeUserFromRoom_idempotent :
    (∀ (s : MemStorage) (x : Nat),
        removeUserFromRoom (removeUserFromRoom s x) x = removeUserFromRoom s x) ∧
    (∀ (s : MemStorage) (x : Nat), getRoomByUser s x = none →
        removeUserFromRoom s x
          = { s with
                waitingQueue := s.waitingQueue.filter (fun u => u.socketId != x),
                videoWaitingQueue := s.videoWaitingQueue.filter (fun u => u.socketId != x) }) := by
  constructor
  · exact removeUserFromRoom_idem
  · intro s x hnone
    cases hm : mapGet s.userRoomMap x with
    | none => rw [removeUserFromRoom_of_mapGet_none hm]; rfl
    | some rid =>
      have hr : mapGet s.chatRooms rid = none := by
        unfold getRoomByUser at hnone
        rw [hm] at hnone
        exact hnone
      rw [removeUserFromRoom_of_room_missing hm hr]
      rfl

theorem claim_removeUserFromRoom_idempotent_witness :
    (removeUserFromRoom (removeUserFromRoom
        ⟨[], [⟨1, 0, "", ""⟩], [], [(0, ⟨0, [1, 2], 0, false⟩)], [(1, 0), (2, 0)], [0], 1, 0⟩ 1) 1
      = removeUserFromRoom
        ⟨[], [⟨1, 0, "", ""⟩], [], [(0, ⟨0, [1, 2], 0, false⟩)], [(1, 0), (2, 0)], [0], 1, 0⟩ 1) ∧
    (removeUserFromRoom
        ⟨[], [⟨3, 0, "", ""⟩, ⟨4, 0, "", ""⟩], [⟨3, 0, "", ""⟩], [], [], [], 0, 0⟩ 3
      = { (⟨[], [⟨3, 0, "", ""⟩, ⟨4, 0, "", ""⟩], [⟨3, 0, "", ""⟩], [], [], [], 0, 0⟩ : MemStorage) with
            waitingQueue :=
              [(⟨3, 0, "", ""⟩ : SocketUser), ⟨4, 0, "", ""⟩].filter (fun u => u.socketId != 3),
            videoWaitingQueue :=
              [(⟨3, 0, "", ""⟩ : SocketUser)].filter (fun u => u.socketId != 3) }) :=
  ⟨claim_removeUserFromRoom_idempotent.1 _ 1,
   claim_removeUserFromRoom_idempotent.2 _ 3 (by decide)⟩

theorem claim_audit_query_surface_witness :
    apiAuditLogs ⟨[⟨0, 1, none, "join_queue", none, none, 5, none⟩,
                   ⟨1, 2, none, "join_queue", none, none, 9, none⟩,
                   ⟨2, 1, some 2, "paired", none, none, 7, none⟩], [], [], [], [], [], 3, 10⟩
      = getAuditLogs ⟨[⟨0, 1, none, "join_queue", none, none, 5, none⟩,
                   ⟨1, 2, none, "join_queue", none, none, 9, none⟩,
                   ⟨2, 1, some 2, "paired", none, none, 7, none⟩], [], [], [], [], [], 3, 10⟩ 50 ∧
    getAuditLogsDefault ⟨[⟨0, 1, none, "join_queue", none, none, 5, none⟩,
                   ⟨1, 2, none, "join_queue", none, none, 9, none⟩,
                   ⟨2, 1, some 2, "paired", none, none, 7, none⟩], [], [], [], [], [], 3, 10⟩
      = getAuditLogs ⟨[⟨0, 1, none, "join_queue", none, none, 5, none⟩,
                   ⟨1, 2, none, "join_queue", none, none, 9, none⟩,
                   ⟨2, 1, some 2, "paired", none, none, 7, none⟩], [], [], [], [], [], 3, 10⟩ 100 ∧
    ∀ limit : Nat,
      (getAuditLogs ⟨[⟨0, 1, none, "join_queue", none, none, 5, none⟩,
                   ⟨1, 2, none, "join_queue", none, none, 9, none⟩,
                   ⟨2, 1, some 2, "paired", none, none, 7, none⟩], [], [], [], [], [], 3, 10⟩
          limit).length ≤ limit ∧
      (getAuditLogs ⟨[⟨0, 1, none, "join_queue", none, none, 5, none⟩,
                   ⟨1, 2, none, "join_queue", none, none, 9, none⟩,
                   ⟨2, 1, some 2, "paired", none, none, 7, none⟩], [], [], [], [], [], 3, 10⟩
          limit).Pairwise (fun a b => b.timestamp ≤ a.timestamp) ∧
      ∃ rest, ((getAuditLogs ⟨[⟨0, 1, none, "join_queue", none, none, 5, none⟩,
                   ⟨1, 2, none, "join_queue", none, none, 9, none⟩,
                   ⟨2, 1, some 2, "paired", none, none, 7, none⟩], [], [], [], [], [], 3, 10⟩
            limit) ++ rest).Perm
          [⟨0, 1, none, "join_queue", none, none, 5, none⟩,
           ⟨1, 2, none, "join_queue", none, none, 9, none⟩,
           ⟨2, 1, some 2, "paired", none, none, 7, none⟩] ∧
        ∀ a ∈ getAuditLogs ⟨[⟨0, 1, none, "join_queue", none, none, 5, none⟩,
                   ⟨1, 2, none, "join_queue", none, none, 9, none⟩,
                   ⟨2, 1, some 2, "paired", none, none, 7, none⟩], [], [], [], [], [], 3, 10⟩
            limit, ∀ b ∈ rest, b.timestamp ≤ a.timestamp :=
  claim_audit_query_surface
    ⟨[⟨0, 1, none, "join_queue", none, none, 5, none⟩,
      ⟨1, 2, none, "join_queue", none, none, 9, none⟩,
      ⟨2, 1, some 2, "paired", none, none, 7, none⟩], [], [], [], [], [], 3, 10⟩
